import Mathlib

/-!
Shallow embedding of the in-memory editable-element overlay model of the
PDF editor (class PDFElement and the overlay part of class PDFEditor in
src/pdf_editor/editor.py): per-page element lists, hit-testing selection,
drag-move, in-place edit, deletion and selection clearing.

Python floats are modelled as exact rationals, Python object identity as
a monotonically increasing id counter (id(self) is unique among live
objects), and the dict from page number to element list as an association
list in key-insertion order.  The field selected_element holds a snapshot
of the selected element; every mutation through the selection updates both
the snapshot and the occurrence in the page lists (in Python the two are
one heap object).
-/

attribute [local semireducible] Rat.add Rat.mul Rat.inv Rat.sub

/-- Editable element, mirroring class PDFElement: id, type tag, content,
position, size, font size, color, selected flag and page number. -/
structure PDFElement where
  id : Nat
  type : String
  content : String
  position : ℚ × ℚ
  size : ℚ × ℚ
  font_size : ℚ
  color : String
  selected : Bool
  page_number : Int
deriving DecidableEq

/-- Overlay-model state of PDFEditor: the dict elements mapping page
number to its element list, the selected_element reference (snapshot), and
the counter producing the next fresh object identity. -/
structure PDFEditor where
  elements : List (Int × List PDFElement)
  selected_element : Option PDFElement
  next_id : Nat
deriving DecidableEq

/-- Dict lookup: value bound to key p, as in the expression elements[p]. -/
def lookupPage : List (Int × List PDFElement) → Int → Option (List PDFElement)
  | [], _ => none
  | (k, v) :: rest, p => if k = p then some v else lookupPage rest p

/-- Dict store elements[p] = v: rebind the existing key, else append the
new key at the end (Python dicts keep key-insertion order). -/
def setPage : List (Int × List PDFElement) → Int → List PDFElement → List (Int × List PDFElement)
  | [], p, v => [(p, v)]
  | (k, w) :: rest, p, v => if k = p then (p, v) :: rest else (k, w) :: setPage rest p v

/-- Statement if p not in elements: elements[p] = [] from the add methods. -/
def ensureKey (m : List (Int × List PDFElement)) (p : Int) : List (Int × List PDFElement) :=
  match lookupPage m p with
  | some _ => m
  | none => m ++ [(p, [])]

/-- Pointwise form of a heap write through an object reference: the object
with identity i is replaced by f of itself, every other object is kept. -/
def updOne (i : Nat) (f : PDFElement → PDFElement) (e : PDFElement) : PDFElement :=
  if e.id = i then f e else e

/-- Heap write through an object reference: update every stored occurrence
of the object with identity i (unique among live objects). -/
def updateById (m : List (Int × List PDFElement)) (i : Nat) (f : PDFElement → PDFElement) :
    List (Int × List PDFElement) :=
  m.map (fun kv => (kv.1, kv.2.map (updOne i f)))

/-- Python list.remove(obj): delete the first occurrence (by identity) of
the object with identity i; the source raises ValueError when absent, the
absence case is covered by the predicate deleteFaults below. -/
def removeFirst : List PDFElement → Nat → List PDFElement
  | [], _ => []
  | e :: rest, i => if e.id = i then rest else e :: removeFirst rest i

/-- Fresh editor: empty elements dict, no selection (PDFEditor.__init__). -/
def initEditor : PDFEditor :=
  { elements := [], selected_element := none, next_id := 0 }

/-- PDFEditor.add_text_element: build a text element whose size is
(len(text) * font_size * 0.6, font_size), stamp its page number, ensure the
page key exists and append. -/
def add_text_element (ed : PDFEditor) (page_number : Int) (text : String)
    (position : ℚ × ℚ) (font_size : ℚ) (color : String) : PDFEditor × PDFElement :=
  let element : PDFElement :=
    { id := ed.next_id, type := "text", content := text, position := position,
      size := ((text.length : ℚ) * font_size * (6/10), font_size),
      font_size := font_size, color := color, selected := false,
      page_number := page_number }
  let m := ensureKey ed.elements page_number
  let m2 := setPage m page_number ((lookupPage m page_number).getD [] ++ [element])
  ({ ed with elements := m2, next_id := ed.next_id + 1 }, element)

/-- PDFEditor.add_image_element: build an image element with the
caller-supplied size and the constructor defaults font_size = 12 and
color = black, stamp its page number, ensure the page key and append. -/
def add_image_element (ed : PDFEditor) (page_number : Int) (image_path : String)
    (position : ℚ × ℚ) (size : ℚ × ℚ) : PDFEditor × PDFElement :=
  let element : PDFElement :=
    { id := ed.next_id, type := "image", content := image_path, position := position,
      size := size, font_size := 12, color := "black", selected := false,
      page_number := page_number }
  let m := ensureKey ed.elements page_number
  let m2 := setPage m page_number ((lookupPage m page_number).getD [] ++ [element])
  ({ ed with elements := m2, next_id := ed.next_id + 1 }, element)

/-- Containment test of the selection loop: x <= px <= x + w and
y <= py <= y + h, inclusive on all four edges. -/
def hitTest (e : PDFElement) (position : ℚ × ℚ) : Bool :=
  decide (e.position.1 ≤ position.1) && decide (position.1 ≤ e.position.1 + e.size.1) &&
  decide (e.position.2 ≤ position.2) && decide (position.2 ≤ e.position.2 + e.size.2)

/-- PDFEditor.select_element_at_position: early return None when the page
key is absent; otherwise clear the selected flag of the current selection,
scan the page list in reverse and select the first hit, or record the empty
selection when no element contains the point. -/
def select_element_at_position (ed : PDFEditor) (page_number : Int) (position : ℚ × ℚ) :
    PDFEditor × Option PDFElement :=
  match lookupPage ed.elements page_number with
  | none => (ed, none)
  | some _ =>
    let ed1 : PDFEditor :=
      match ed.selected_element with
      | some sel =>
        { ed with
          elements := updateById ed.elements sel.id (fun e => { e with selected := false }),
          selected_element := some { sel with selected := false } }
      | none => ed
    let lst := (lookupPage ed1.elements page_number).getD []
    match lst.reverse.find? (fun e => hitTest e position) with
    | some e =>
      let e2 : PDFElement := { e with selected := true }
      ({ ed1 with
         elements := updateById ed1.elements e.id (fun x => { x with selected := true }),
         selected_element := some e2 }, some e2)
    | none => ({ ed1 with selected_element := none }, none)

/-- PDFEditor.move_selected_element: add the relative displacement to the
selected element's position and report whether a move occurred. -/
def move_selected_element (ed : PDFEditor) (dx dy : ℚ) : PDFEditor × Bool :=
  match ed.selected_element with
  | some sel =>
    ({ ed with
       elements := updateById ed.elements sel.id
         (fun e => { e with position := (e.position.1 + dx, e.position.2 + dy) }),
       selected_element := some { sel with
         position := (sel.position.1 + dx, sel.position.2 + dy) } }, true)
  | none => (ed, false)

/-- PDFEditor.edit_selected_element: on a text selection replace the
content and recompute the size as (len(new_content) * font_size * 0.6,
font_size); otherwise report False. -/
def edit_selected_element (ed : PDFEditor) (new_content : String) : PDFEditor × Bool :=
  match ed.selected_element with
  | some sel =>
    if sel.type = "text" then
      let f : PDFElement → PDFElement := fun e =>
        { e with content := new_content,
                 size := ((new_content.length : ℚ) * e.font_size * (6/10), e.font_size) }
      ({ ed with
         elements := updateById ed.elements sel.id f,
         selected_element := some (f sel) }, true)
    else (ed, false)
  | none => (ed, false)

/-- PDFEditor.delete_selected_element: when a selection exists and its page
number is a dict key, remove the selected object from that page's list and
clear the selection; otherwise report False. -/
def delete_selected_element (ed : PDFEditor) : PDFEditor × Bool :=
  match ed.selected_element with
  | some sel =>
    match lookupPage ed.elements sel.page_number with
    | some lst =>
      ({ ed with
         elements := setPage ed.elements sel.page_number (removeFirst lst sel.id),
         selected_element := none }, true)
    | none => (ed, false)
  | none => (ed, false)

/-- PDFEditor.get_page_elements: elements.get(page_number, []). -/
def get_page_elements (ed : PDFEditor) (page_number : Int) : List PDFElement :=
  (lookupPage ed.elements page_number).getD []

/-- PDFEditor.clear_selection: clear the selected flag of the current
selection, if any, and reset the reference to None. -/
def clear_selection (ed : PDFEditor) : PDFEditor :=
  match ed.selected_element with
  | some sel =>
    { ed with
      elements := updateById ed.elements sel.id (fun e => { e with selected := false }),
      selected_element := none }
  | none => ed

/-- Core operations a caller can issue, for reachability statements. -/
inductive Op where
  | addText : Int → String → ℚ × ℚ → ℚ → String → Op
  | addImage : Int → String → ℚ × ℚ → ℚ × ℚ → Op
  | selectAt : Int → ℚ × ℚ → Op
  | moveSel : ℚ → ℚ → Op
  | editSel : String → Op
  | deleteSel : Op
  | clearSel : Op
deriving DecidableEq

/-- State transition of one operation (each call's state effect). -/
def applyOp (ed : PDFEditor) : Op → PDFEditor
  | Op.addText p t pos fs c => (add_text_element ed p t pos fs c).1
  | Op.addImage p path pos sz => (add_image_element ed p path pos sz).1
  | Op.selectAt p pos => (select_element_at_position ed p pos).1
  | Op.moveSel dx dy => (move_selected_element ed dx dy).1
  | Op.editSel s => (edit_selected_element ed s).1
  | Op.deleteSel => (delete_selected_element ed).1
  | Op.clearSel => clear_selection ed

/-- State after running a call sequence from a given state. -/
def runFrom (ed : PDFEditor) (ops : List Op) : PDFEditor := ops.foldl applyOp ed

/-- State after running a call sequence from the fresh editor. -/
def runOps (ops : List Op) : PDFEditor := runFrom initEditor ops

/-- States reachable from the fresh editor by some call sequence. -/
def Reachable (ed : PDFEditor) : Prop := ∃ ops : List Op, runOps ops = ed

/-- Key list of the elements dict, in key-insertion order. -/
def pageKeys (m : List (Int × List PDFElement)) : List Int := m.map Prod.fst

/-- Every element stored anywhere in the dict, page by page. -/
def allElems (m : List (Int × List PDFElement)) : List PDFElement :=
  (m.map Prod.snd).flatten

/-- Dict keys are pairwise distinct (Python dicts cannot repeat a key). -/
def keysOk (m : List (Int × List PDFElement)) : Prop := (pageKeys m).Nodup

/-- Every stored element's page_number field names the page list holding it. -/
def pagesOk (m : List (Int × List PDFElement)) : Prop :=
  ∀ kv ∈ m, ∀ e ∈ kv.2, e.page_number = kv.1

/-- Object identities are pairwise distinct across all pages. -/
def idsOk (m : List (Int × List PDFElement)) : Prop :=
  ((allElems m).map PDFElement.id).Nodup

/-- Every stored identity is below the fresh-identity counter. -/
def idsBelow (m : List (Int × List PDFElement)) (n : Nat) : Prop :=
  ∀ e ∈ allElems m, e.id < n

/-- Selection consistency: with no selection no stored element is flagged;
with a selection the snapshot is flagged, occurs in the store, and every
stored element of another identity is unflagged. -/
def selOk (ed : PDFEditor) : Prop :=
  (ed.selected_element = none → ∀ e ∈ allElems ed.elements, e.selected = false) ∧
  (∀ sel, ed.selected_element = some sel → sel.selected = true ∧
      sel ∈ allElems ed.elements ∧
      ∀ e ∈ allElems ed.elements, e.id ≠ sel.id → e.selected = false)

/-- Representation invariant of the overlay model. -/
def EditorInv (ed : PDFEditor) : Prop :=
  keysOk ed.elements ∧ pagesOk ed.elements ∧ idsOk ed.elements ∧
  idsBelow ed.elements ed.next_id ∧ selOk ed

/-- Condition under which the list.remove call in delete_selected_element
would raise ValueError: a selection exists, its page is a dict key, but no
stored object on that page has the selected identity. -/
def deleteFaults (ed : PDFEditor) : Bool :=
  match ed.selected_element with
  | some sel =>
    match lookupPage ed.elements sel.page_number with
    | some lst => !(lst.any (fun e => e.id == sel.id))
    | none => false
  | none => false

/-- Projection forgetting the selected flag, used to compare element lists
that agree except for selection marks. -/
def strip (e : PDFElement) : PDFElement := { e with selected := false }

/-- Number of add calls targeting page q in a call sequence. -/
def addsOn : List Op → Int → Nat
  | [], _ => 0
  | Op.addText p _ _ _ _ :: rest, q => (if p = q then 1 else 0) + addsOn rest q
  | Op.addImage p _ _ _ :: rest, q => (if p = q then 1 else 0) + addsOn rest q
  | _ :: rest, q => addsOn rest q

/-- Whether a delete issued in state ed succeeds with its selected element
on page q. -/
def delHitsPage (ed : PDFEditor) (q : Int) : Bool :=
  match ed.selected_element with
  | some sel => (delete_selected_element ed).2 && (sel.page_number == q)
  | none => false

/-- Number of successful deletes of a page-q element along a call sequence
run from state ed. -/
def delsOn : PDFEditor → List Op → Int → Nat
  | _, [], _ => 0
  | ed, Op.deleteSel :: rest, q =>
      (if delHitsPage ed q then 1 else 0) + delsOn (applyOp ed Op.deleteSel) rest q
  | ed, op :: rest, q => delsOn (applyOp ed op) rest q

/-! Basic lemmas about the dict operations. -/

theorem lookupPage_isSome_iff (m : List (Int × List PDFElement)) (p : Int) :
    (lookupPage m p).isSome = true ↔ p ∈ pageKeys m := by
  induction m with
  | nil => simp [lookupPage, pageKeys]
  | cons kv rest ih =>
    obtain ⟨k, v⟩ := kv
    by_cases h : k = p
    · subst h
      simp [lookupPage, pageKeys]
    · simp only [lookupPage, pageKeys, List.map_cons, List.mem_cons, if_neg h]
      rw [ih]
      simp [pageKeys]
      intro he
      exact absurd he.symm h

theorem lookup_setPage_self (m : List (Int × List PDFElement)) (p : Int)
    (v : List PDFElement) : lookupPage (setPage m p v) p = some v := by
  induction m with
  | nil => simp [setPage, lookupPage]
  | cons kv rest ih =>
    obtain ⟨k, w⟩ := kv
    by_cases h : k = p
    · subst h
      simp [setPage, lookupPage]
    · simp [setPage, lookupPage, h, ih]

theorem lookup_setPage_ne (m : List (Int × List PDFElement)) (p q : Int)
    (v : List PDFElement) (h : q ≠ p) :
    lookupPage (setPage m p v) q = lookupPage m q := by
  induction m with
  | nil => simp [setPage, lookupPage, Ne.symm h]
  | cons kv rest ih =>
    obtain ⟨k, w⟩ := kv
    by_cases hk : k = p
    · subst hk
      simp [setPage, lookupPage, Ne.symm h]
    · by_cases hq : k = q
      · subst hq
        simp [setPage, lookupPage, hk]
      · simp [setPage, lookupPage, hk, hq, ih]

theorem lookup_append_left (m m2 : List (Int × List PDFElement)) (p : Int)
    (h : (lookupPage m p).isSome = true) :
    lookupPage (m ++ m2) p = lookupPage m p := by
  induction m with
  | nil => simp [lookupPage] at h
  | cons kv rest ih =>
    obtain ⟨k, v⟩ := kv
    by_cases hk : k = p
    · subst hk
      simp [lookupPage]
    · simp only [lookupPage, if_neg hk] at h ⊢
      exact ih h

theorem lookup_append_right (m m2 : List (Int × List PDFElement)) (p : Int)
    (h : lookupPage m p = none) :
    lookupPage (m ++ m2) p = lookupPage m2 p := by
  induction m with
  | nil => simp [lookupPage]
  | cons kv rest ih =>
    obtain ⟨k, v⟩ := kv
    by_cases hk : k = p
    · subst hk
      simp [lookupPage] at h
    · simp only [lookupPage, if_neg hk] at h ⊢
      exact ih h

theorem lookup_ensureKey_self (m : List (Int × List PDFElement)) (p : Int) :
    lookupPage (ensureKey m p) p = some ((lookupPage m p).getD []) := by
  unfold ensureKey
  cases h : lookupPage m p with
  | some l => simp [h]
  | none =>
    rw [lookup_append_right m _ p h]
    simp [lookupPage, h]

theorem lookup_ensureKey_ne (m : List (Int × List PDFElement)) (p q : Int) (h : q ≠ p) :
    lookupPage (ensureKey m p) q = lookupPage m q := by
  unfold ensureKey
  cases hl : lookupPage m p with
  | some l => rfl
  | none =>
    cases hq : lookupPage m q with
    | some w =>
      rw [lookup_append_left]
      · exact hq
      · simp [hq]
    | none =>
      rw [lookup_append_right m _ q hq]
      simp [lookupPage, Ne.symm h]

theorem lookup_updateById (m : List (Int × List PDFElement)) (i : Nat)
    (f : PDFElement → PDFElement) (p : Int) :
    lookupPage (updateById m i f) p = (lookupPage m p).map (List.map (updOne i f)) := by
  induction m with
  | nil => simp [updateById, lookupPage]
  | cons kv rest ih =>
    obtain ⟨k, v⟩ := kv
    by_cases hk : k = p
    · subst hk
      simp [updateById, lookupPage]
    · simp only [updateById, List.map_cons, lookupPage, if_neg hk] at ih ⊢
      exact ih

theorem allElems_append (a b : List (Int × List PDFElement)) :
    allElems (a ++ b) = allElems a ++ allElems b := by
  simp [allElems]

theorem allElems_cons (kv : Int × List PDFElement) (m : List (Int × List PDFElement)) :
    allElems (kv :: m) = kv.2 ++ allElems m := by
  simp [allElems]

theorem allElems_updateById (m : List (Int × List PDFElement)) (i : Nat)
    (f : PDFElement → PDFElement) :
    allElems (updateById m i f) = (allElems m).map (updOne i f) := by
  induction m with
  | nil => rfl
  | cons kv rest ih =>
    simp only [updateById, List.map_cons] at ih ⊢
    rw [allElems_cons, allElems_cons, List.map_append, ih]

theorem mem_allElems (m : List (Int × List PDFElement)) (x : PDFElement) :
    x ∈ allElems m ↔ ∃ kv ∈ m, x ∈ kv.2 := by
  simp only [allElems, List.mem_flatten, List.mem_map]
  constructor
  · rintro ⟨l, ⟨kv, hkv, hsnd⟩, hx⟩
    exact ⟨kv, hkv, by rw [hsnd]; exact hx⟩
  · rintro ⟨kv, hkv, hx⟩
    exact ⟨kv.2, ⟨kv, hkv, rfl⟩, hx⟩

theorem pageKeys_setPage (m : List (Int × List PDFElement)) (p : Int) (v : List PDFElement)
    (h : (lookupPage m p).isSome = true) : pageKeys (setPage m p v) = pageKeys m := by
  induction m with
  | nil => simp [lookupPage] at h
  | cons kv rest ih =>
    obtain ⟨k, w⟩ := kv
    by_cases hk : k = p
    · subst hk
      simp [setPage, pageKeys]
    · simp only [lookupPage, if_neg hk] at h
      simp [setPage, pageKeys, hk, ih h]
      exact ih h

theorem pageKeys_updateById (m : List (Int × List PDFElement)) (i : Nat)
    (f : PDFElement → PDFElement) : pageKeys (updateById m i f) = pageKeys m := by
  simp [pageKeys, updateById]

theorem pageKeys_ensureKey_isSome (m : List (Int × List PDFElement)) (p : Int)
    (h : (lookupPage m p).isSome = true) : pageKeys (ensureKey m p) = pageKeys m := by
  unfold ensureKey
  cases hl : lookupPage m p with
  | some l => rfl
  | none => simp [hl] at h

theorem pageKeys_ensureKey_none (m : List (Int × List PDFElement)) (p : Int)
    (h : lookupPage m p = none) : pageKeys (ensureKey m p) = pageKeys m ++ [p] := by
  unfold ensureKey
  simp [h, pageKeys]

theorem lookup_decomp (m : List (Int × List PDFElement)) (p : Int) (l : List PDFElement)
    (h : lookupPage m p = some l) :
    ∃ pre post, p ∉ pageKeys pre ∧ m = pre ++ (p, l) :: post ∧
      ∀ v, setPage m p v = pre ++ (p, v) :: post := by
  induction m with
  | nil => simp [lookupPage] at h
  | cons kv rest ih =>
    obtain ⟨k, w⟩ := kv
    by_cases hk : k = p
    · subst hk
      have hw : w = l := by simpa [lookupPage] using h
      subst hw
      exact ⟨[], rest, by simp [pageKeys], rfl, fun v => by simp [setPage]⟩
    · simp only [lookupPage, if_neg hk] at h
      obtain ⟨pre, post, hnp, hm, hset⟩ := ih h
      refine ⟨(k, w) :: pre, post, ?_, ?_, ?_⟩
      · simp [pageKeys] at hnp ⊢
        exact ⟨Ne.symm hk, hnp⟩
      · rw [List.cons_append, ← hm]
      · intro v
        simp only [setPage, if_neg hk, hset v, List.cons_append]

theorem mem_allElems_of_lookup (m : List (Int × List PDFElement)) (p : Int)
    (l : List PDFElement) (x : PDFElement) (h : lookupPage m p = some l) (hx : x ∈ l) :
    x ∈ allElems m := by
  obtain ⟨pre, post, _, hm, _⟩ := lookup_decomp m p l h
  subst hm
  rw [allElems_append, allElems_cons]
  simp [hx]

theorem removeFirst_eq_of_forall (l : List PDFElement) (i : Nat)
    (h : ∀ e ∈ l, e.id ≠ i) : removeFirst l i = l := by
  induction l with
  | nil => rfl
  | cons e rest ih =>
    simp only [removeFirst, if_neg (h e (by simp))]
    rw [ih (fun x hx => h x (by simp [hx]))]

theorem removeFirst_decomp (l : List PDFElement) (i : Nat) (e : PDFElement)
    (he : e ∈ l) (hid : e.id = i) :
    ∃ l1 x l2, x.id = i ∧ l = l1 ++ x :: l2 ∧ (∀ y ∈ l1, y.id ≠ i) ∧
      removeFirst l i = l1 ++ l2 := by
  induction l with
  | nil => simp at he
  | cons a rest ih =>
    by_cases ha : a.id = i
    · exact ⟨[], a, rest, ha, rfl, by simp, by simp [removeFirst, ha]⟩
    · have hmem : e ∈ rest := by
        rcases List.mem_cons.mp he with h1 | h1
        · subst h1
          exact absurd hid ha
        · exact h1
      obtain ⟨l1, x, l2, hx, hrest, hl1, hrem⟩ := ih hmem
      refine ⟨a :: l1, x, l2, hx, by rw [hrest]; rfl, ?_, ?_⟩
      · intro y hy
        rcases List.mem_cons.mp hy with h1 | h1
        · subst h1; exact ha
        · exact hl1 y h1
      · simp only [removeFirst, if_neg ha, hrem, List.cons_append]

theorem eq_of_ids_nodup (l : List PDFElement)
    (h : (l.map PDFElement.id).Nodup) (x y : PDFElement)
    (hx : x ∈ l) (hy : y ∈ l) (hxy : x.id = y.id) : x = y := by
  have := List.inj_on_of_nodup_map h
  exact this hx hy hxy

theorem updOne_id (i : Nat) (f : PDFElement → PDFElement)
    (hf : ∀ e, (f e).id = e.id) (e : PDFElement) : (updOne i f e).id = e.id := by
  unfold updOne
  split
  · exact hf e
  · rfl

theorem updOne_page (i : Nat) (f : PDFElement → PDFElement)
    (hf : ∀ e, (f e).page_number = e.page_number) (e : PDFElement) :
    (updOne i f e).page_number = e.page_number := by
  unfold updOne
  split
  · exact hf e
  · rfl

theorem map_updOne_ids (l : List PDFElement) (i : Nat) (f : PDFElement → PDFElement)
    (hf : ∀ e, (f e).id = e.id) :
    (l.map (updOne i f)).map PDFElement.id = l.map PDFElement.id := by
  induction l with
  | nil => rfl
  | cons a rest ih => simp [updOne_id i f hf, ih]

theorem lookup_of_mem (m : List (Int × List PDFElement)) (kv : Int × List PDFElement)
    (hk : keysOk m) (hmem : kv ∈ m) : lookupPage m kv.1 = some kv.2 := by
  induction m with
  | nil => simp at hmem
  | cons a rest ih =>
    obtain ⟨k, v⟩ := a
    rw [keysOk, pageKeys, List.map_cons, List.nodup_cons] at hk
    rcases List.mem_cons.mp hmem with h1 | h1
    · subst h1
      simp [lookupPage]
    · by_cases ha : k = kv.1
      · exact absurd (by rw [ha]; exact List.mem_map.mpr ⟨kv, h1, rfl⟩) hk.1
      · simp only [lookupPage, if_neg ha]
        exact ih hk.2 h1

theorem removeFirst_sublist (l : List PDFElement) (i : Nat) :
    List.Sublist (removeFirst l i) l := by
  induction l with
  | nil => simp [removeFirst]
  | cons a rest ih =>
    unfold removeFirst
    split
    · exact List.sublist_cons_self a rest
    · exact List.Sublist.cons₂ a ih

theorem allElems_ensureKey (m : List (Int × List PDFElement)) (p : Int) :
    allElems (ensureKey m p) = allElems m := by
  unfold ensureKey
  cases lookupPage m p with
  | some l => rfl
  | none => simp [allElems_append, allElems_cons, allElems]

theorem pagesOk_ensureKey (m : List (Int × List PDFElement)) (p : Int) (h : pagesOk m) :
    pagesOk (ensureKey m p) := by
  unfold ensureKey
  cases lookupPage m p with
  | some l => exact h
  | none =>
    intro kv hkv e he
    rcases List.mem_append.mp hkv with h1 | h1
    · exact h kv h1 e he
    · simp at h1
      subst h1
      simp at he

theorem sel_in_list (ed : PDFEditor) (sel : PDFElement) (h : EditorInv ed)
    (hsel : ed.selected_element = some sel) :
    ∃ lst, lookupPage ed.elements sel.page_number = some lst ∧ sel ∈ lst := by
  obtain ⟨hk, hp, hi, hb, hs⟩ := h
  obtain ⟨-, hmem, -⟩ := hs.2 sel hsel
  obtain ⟨kv, hkv, hin⟩ := (mem_allElems ed.elements sel).mp hmem
  have hpage : sel.page_number = kv.1 := hp kv hkv sel hin
  refine ⟨kv.2, ?_, hin⟩
  rw [hpage]
  exact lookup_of_mem ed.elements kv hk hkv

theorem allElems_insert_perm (m : List (Int × List PDFElement)) (p : Int) (e : PDFElement) :
    List.Perm
      (allElems (setPage (ensureKey m p) p
        ((lookupPage (ensureKey m p) p).getD [] ++ [e])))
      (allElems m ++ [e]) := by
  have hlk := lookup_ensureKey_self m p
  obtain ⟨pre, post, hnp, hm, hset⟩ := lookup_decomp (ensureKey m p) p _ hlk
  rw [hlk, Option.getD_some, hset]
  conv_rhs => rw [← allElems_ensureKey m p, hm]
  rw [allElems_append, allElems_cons, allElems_append, allElems_cons]
  simp only [List.append_assoc]
  exact List.Perm.append_left _ (List.Perm.append_left _ List.perm_append_comm)

theorem store_updateById (m : List (Int × List PDFElement)) (n : Nat) (i : Nat)
    (f : PDFElement → PDFElement)
    (hk : keysOk m) (hp : pagesOk m) (hi : idsOk m) (hb : idsBelow m n)
    (hf_id : ∀ e, (f e).id = e.id) (hf_page : ∀ e, (f e).page_number = e.page_number) :
    keysOk (updateById m i f) ∧ pagesOk (updateById m i f) ∧
      idsOk (updateById m i f) ∧ idsBelow (updateById m i f) n := by
  refine ⟨?_, ?_, ?_, ?_⟩
  · rw [keysOk, pageKeys_updateById]
    exact hk
  · intro kv hkv x hx
    obtain ⟨kv0, hkv0, hkveq⟩ := List.mem_map.mp hkv
    rw [← hkveq] at hx ⊢
    obtain ⟨y, hy, hxy⟩ := List.mem_map.mp hx
    rw [← hxy, updOne_page i f hf_page y]
    exact hp kv0 hkv0 y hy
  · rw [idsOk, allElems_updateById, map_updOne_ids _ _ _ hf_id]
    exact hi
  · intro x hx
    rw [allElems_updateById] at hx
    obtain ⟨y, hy, hxy⟩ := List.mem_map.mp hx
    rw [← hxy, updOne_id i f hf_id y]
    exact hb y hy

theorem pagesOk_insert (m : List (Int × List PDFElement)) (p : Int) (e : PDFElement)
    (h : pagesOk m) (hpage : e.page_number = p) :
    pagesOk (setPage (ensureKey m p) p
      ((lookupPage (ensureKey m p) p).getD [] ++ [e])) := by
  have hlk := lookup_ensureKey_self m p
  obtain ⟨pre, post, hnp, hm, hset⟩ := lookup_decomp (ensureKey m p) p _ hlk
  have hPm : pagesOk (ensureKey m p) := pagesOk_ensureKey m p h
  rw [hlk, Option.getD_some, hset]
  rw [hm] at hPm
  intro kv hkv x hx
  rcases List.mem_append.mp hkv with h1 | h1
  · exact hPm kv (List.mem_append_left _ h1) x hx
  · rcases List.mem_cons.mp h1 with h2 | h2
    · subst h2
      rcases List.mem_append.mp hx with h3 | h3
      · exact hPm (p, (lookupPage m p).getD [])
          (List.mem_append_right _ (List.mem_cons_self _ _)) x h3
      · simp at h3
        subst h3
        exact hpage
    · exact hPm kv (List.mem_append_right _ (List.mem_cons_of_mem _ h2)) x hx

theorem inv_insert (ed : PDFEditor) (p : Int) (e : PDFElement)
    (h : EditorInv ed) (hid : e.id = ed.next_id) (hsel : e.selected = false)
    (hpage : e.page_number = p) :
    EditorInv { ed with
      elements := setPage (ensureKey ed.elements p) p
        ((lookupPage (ensureKey ed.elements p) p).getD [] ++ [e]),
      next_id := ed.next_id + 1 } := by
  obtain ⟨hk, hp, hi, hb, hs⟩ := h
  have hperm := allElems_insert_perm ed.elements p e
  refine ⟨?_, pagesOk_insert ed.elements p e hp hpage, ?_, ?_, ?_, ?_⟩
  · cases hlp : lookupPage ed.elements p with
    | some l =>
      rw [keysOk, pageKeys_setPage _ _ _ (by rw [lookup_ensureKey_self]; rfl),
        pageKeys_ensureKey_isSome _ _ (by rw [hlp]; rfl)]
      exact hk
    | none =>
      rw [keysOk, pageKeys_setPage _ _ _ (by rw [lookup_ensureKey_self]; rfl),
        pageKeys_ensureKey_none _ _ hlp]
      have hpn : p ∉ pageKeys ed.elements := by
        rw [← lookupPage_isSome_iff]
        simp [hlp]
      exact List.Nodup.append hk (List.nodup_singleton p)
        (by intro a ha hb2; simp at hb2; subst hb2; exact hpn ha)
  · rw [idsOk, List.Perm.nodup_iff (hperm.map PDFElement.id), List.map_append]
    refine List.Nodup.append hi (by simp) ?_
    intro a ha hb2
    simp at hb2
    subst hb2
    obtain ⟨y, hy, hye⟩ := List.mem_map.mp ha
    have hlt := hb y hy
    rw [hye, hid] at hlt
    exact Nat.lt_irrefl _ hlt
  · intro x hx
    rcases List.mem_append.mp (hperm.mem_iff.mp hx) with h1 | h1
    · exact Nat.lt_succ_of_lt (hb x h1)
    · simp at h1
      subst h1
      rw [hid]
      exact Nat.lt_succ_self _
  · intro hnone x hx
    rcases List.mem_append.mp (hperm.mem_iff.mp hx) with h1 | h1
    · exact hs.1 hnone x h1
    · simp at h1
      subst h1
      exact hsel
  · intro sel hsome
    obtain ⟨hst, hsm, hso⟩ := hs.2 sel hsome
    refine ⟨hst, hperm.mem_iff.mpr (List.mem_append_left _ hsm), ?_⟩
    intro x hx hxid
    rcases List.mem_append.mp (hperm.mem_iff.mp hx) with h1 | h1
    · exact hso x h1 hxid
    · simp at h1
      subst h1
      exact hsel

theorem inv_after_miss (m1 : List (Int × List PDFElement)) (n : Nat)
    (hk : keysOk m1) (hp : pagesOk m1) (hi : idsOk m1) (hb : idsBelow m1 n)
    (hflags : ∀ x ∈ allElems m1, x.selected = false) :
    EditorInv { elements := m1, selected_element := none, next_id := n } :=
  ⟨hk, hp, hi, hb, fun _ x hx => hflags x hx, fun _ hsome => by simp at hsome⟩

theorem inv_after_hit (m1 : List (Int × List PDFElement)) (e : PDFElement) (n : Nat)
    (hk : keysOk m1) (hp : pagesOk m1) (hi : idsOk m1) (hb : idsBelow m1 n)
    (hflags : ∀ x ∈ allElems m1, x.selected = false)
    (hmem : e ∈ allElems m1) :
    EditorInv { elements := updateById m1 e.id (fun x => { x with selected := true }),
                selected_element := some { e with selected := true },
                next_id := n } := by
  obtain ⟨hk2, hp2, hi2, hb2⟩ :=
    store_updateById m1 n e.id (fun x => { x with selected := true }) hk hp hi hb
      (fun x => rfl) (fun x => rfl)
  refine ⟨hk2, hp2, hi2, hb2, ?_, ?_⟩
  · intro hnone
    simp at hnone
  · intro sel2 hsome
    have hsel2 : ({ e with selected := true } : PDFElement) = sel2 := by simpa using hsome
    subst hsel2
    refine ⟨rfl, ?_, ?_⟩
    · show _ ∈ allElems (updateById m1 e.id (fun x => { x with selected := true }))
      rw [allElems_updateById]
      refine List.mem_map.mpr ⟨e, hmem, ?_⟩
      unfold updOne
      rw [if_pos rfl]
    · intro x hx hxid
      replace hx : x ∈ allElems (updateById m1 e.id (fun x => { x with selected := true })) := hx
      rw [allElems_updateById] at hx
      obtain ⟨y, hy, hxy⟩ := List.mem_map.mp hx
      by_cases hyid : y.id = e.id
      · exact absurd (by rw [← hxy]; unfold updOne; rw [if_pos hyid, hyid]) hxid
      · have hxeqy : x = y := by rw [← hxy]; unfold updOne; rw [if_neg hyid]
        rw [hxeqy]
        exact hflags y hy

theorem inv_mutate (ed : PDFEditor) (sel : PDFElement) (f : PDFElement → PDFElement)
    (h : EditorInv ed) (hse : ed.selected_element = some sel)
    (hf_id : ∀ e, (f e).id = e.id) (hf_page : ∀ e, (f e).page_number = e.page_number)
    (hf_flag : ∀ e, (f e).selected = e.selected) :
    EditorInv { ed with
      elements := updateById ed.elements sel.id f,
      selected_element := some (f sel) } := by
  obtain ⟨hk, hp, hi, hb, hs⟩ := h
  obtain ⟨hst, hsm, hso⟩ := hs.2 sel hse
  obtain ⟨hk2, hp2, hi2, hb2⟩ :=
    store_updateById ed.elements ed.next_id sel.id f hk hp hi hb hf_id hf_page
  refine ⟨hk2, hp2, hi2, hb2, ?_, ?_⟩
  · intro hnone
    simp at hnone
  · intro sel2 hsome
    have hsel2 : f sel = sel2 := by simpa using hsome
    subst hsel2
    refine ⟨by rw [hf_flag]; exact hst, ?_, ?_⟩
    · show f sel ∈ allElems (updateById ed.elements sel.id f)
      rw [allElems_updateById]
      refine List.mem_map.mpr ⟨sel, hsm, ?_⟩
      unfold updOne
      rw [if_pos rfl]
    · intro x hx hxid
      replace hx : x ∈ allElems (updateById ed.elements sel.id f) := hx
      rw [allElems_updateById] at hx
      obtain ⟨y, hy, hxy⟩ := List.mem_map.mp hx
      have hxid2 : x.id = y.id := by rw [← hxy, updOne_id _ _ hf_id]
      by_cases hyid : y.id = sel.id
      · exact absurd (by rw [hxid2, hyid, hf_id sel]) hxid
      · have hxeqy : x = y := by rw [← hxy]; unfold updOne; rw [if_neg hyid]
        rw [hxeqy]
        exact hso y hy hyid

theorem inv_move (ed : PDFEditor) (dx dy : ℚ) (h : EditorInv ed) :
    EditorInv (move_selected_element ed dx dy).1 := by
  cases hse : ed.selected_element with
  | none =>
    have hred : (move_selected_element ed dx dy).1 = ed := by
      unfold move_selected_element
      rw [hse]
    rw [hred]
    exact h
  | some sel =>
    have hred : (move_selected_element ed dx dy).1 =
        { ed with
          elements := updateById ed.elements sel.id
            (fun e => { e with position := (e.position.1 + dx, e.position.2 + dy) }),
          selected_element :=
            some { sel with position := (sel.position.1 + dx, sel.position.2 + dy) } } := by
      unfold move_selected_element
      rw [hse]
    rw [hred]
    exact inv_mutate ed sel
      (fun e => { e with position := (e.position.1 + dx, e.position.2 + dy) })
      h hse (fun e => rfl) (fun e => rfl) (fun e => rfl)

theorem inv_edit (ed : PDFEditor) (nc : String) (h : EditorInv ed) :
    EditorInv (edit_selected_element ed nc).1 := by
  cases hse : ed.selected_element with
  | none =>
    have hred : (edit_selected_element ed nc).1 = ed := by
      unfold edit_selected_element
      rw [hse]
    rw [hred]
    exact h
  | some sel =>
    by_cases ht : sel.type = "text"
    · have hred : (edit_selected_element ed nc).1 =
          { ed with
            elements := updateById ed.elements sel.id (fun e =>
              { e with content := nc,
                       size := ((nc.length : ℚ) * e.font_size * (6/10), e.font_size) }),
            selected_element :=
              some { sel with content := nc,
                              size := ((nc.length : ℚ) * sel.font_size * (6/10), sel.font_size) } } := by
        unfold edit_selected_element
        rw [hse]
        simp only [ht, if_true]
      rw [hred]
      exact inv_mutate ed sel
        (fun e => { e with content := nc,
                           size := ((nc.length : ℚ) * e.font_size * (6/10), e.font_size) })
        h hse (fun e => rfl) (fun e => rfl) (fun e => rfl)
    · have hred : (edit_selected_element ed nc).1 = ed := by
        unfold edit_selected_element
        rw [hse]
        simp only [ht, if_false]
      rw [hred]
      exact h

theorem inv_clear (ed : PDFEditor) (h : EditorInv ed) :
    EditorInv (clear_selection ed) := by
  cases hse : ed.selected_element with
  | none =>
    have hred : clear_selection ed = ed := by
      unfold clear_selection
      rw [hse]
    rw [hred]
    exact h
  | some sel =>
    obtain ⟨hk, hp, hi, hb, hs⟩ := h
    obtain ⟨hst, hsm, hso⟩ := hs.2 sel hse
    obtain ⟨hk2, hp2, hi2, hb2⟩ :=
      store_updateById ed.elements ed.next_id sel.id
        (fun e => { e with selected := false }) hk hp hi hb (fun e => rfl) (fun e => rfl)
    have hred : clear_selection ed =
        { ed with
          elements := updateById ed.elements sel.id (fun e => { e with selected := false }),
          selected_element := none } := by
      unfold clear_selection
      rw [hse]
    rw [hred]
    refine ⟨hk2, hp2, hi2, hb2, ?_, ?_⟩
    · intro _ x hx
      replace hx :
          x ∈ allElems (updateById ed.elements sel.id (fun e => { e with selected := false })) := hx
      rw [allElems_updateById] at hx
      obtain ⟨y, hy, hxy⟩ := List.mem_map.mp hx
      by_cases hyid : y.id = sel.id
      · rw [← hxy]
        unfold updOne
        rw [if_pos hyid]
      · have hxeqy : x = y := by rw [← hxy]; unfold updOne; rw [if_neg hyid]
        rw [hxeqy]
        exact hso y hy hyid
    · intro sel2 hsome
      simp at hsome

theorem inv_select (ed : PDFEditor) (p : Int) (pos : ℚ × ℚ) (h : EditorInv ed) :
    EditorInv (select_element_at_position ed p pos).1 := by
  cases hlp : lookupPage ed.elements p with
  | none =>
    have hred : (select_element_at_position ed p pos).1 = ed := by
      unfold select_element_at_position
      rw [hlp]
    rw [hred]
    exact h
  | some l0 =>
    obtain ⟨hk, hp2, hi, hb, hs⟩ := h
    cases hse : ed.selected_element with
    | none =>
      have hflags : ∀ x ∈ allElems ed.elements, x.selected = false := hs.1 hse
      cases hfind : l0.reverse.find? (fun e => hitTest e pos) with
      | none =>
        have hred : (select_element_at_position ed p pos).1 =
            { ed with selected_element := none } := by
          simp only [select_element_at_position, hlp, hse, Option.getD_some, hfind]
        rw [hred]
        exact inv_after_miss ed.elements ed.next_id hk hp2 hi hb hflags
      | some e =>
        have hred : (select_element_at_position ed p pos).1 =
            { ed with
              elements := updateById ed.elements e.id (fun x => { x with selected := true }),
              selected_element := some { e with selected := true } } := by
          simp only [select_element_at_position, hlp, hse, Option.getD_some, hfind]
        rw [hred]
        have hmem : e ∈ allElems ed.elements :=
          mem_allElems_of_lookup ed.elements p l0 e hlp
            (List.mem_reverse.mp (List.mem_of_find?_eq_some hfind))
        exact inv_after_hit ed.elements e ed.next_id hk hp2 hi hb hflags hmem
    | some sel =>
      obtain ⟨hst, hsm, hso⟩ := hs.2 sel hse
      obtain ⟨hk1, hp1, hi1, hb1⟩ :=
        store_updateById ed.elements ed.next_id sel.id
          (fun e => { e with selected := false }) hk hp2 hi hb (fun e => rfl) (fun e => rfl)
      have hflags1 : ∀ x ∈ allElems (updateById ed.elements sel.id
          (fun e => { e with selected := false })), x.selected = false := by
        intro x hx
        rw [allElems_updateById] at hx
        obtain ⟨y, hy, hxy⟩ := List.mem_map.mp hx
        by_cases hyid : y.id = sel.id
        · rw [← hxy]
          unfold updOne
          rw [if_pos hyid]
        · have hxeqy : x = y := by rw [← hxy]; unfold updOne; rw [if_neg hyid]
          rw [hxeqy]
          exact hso y hy hyid
      have hlk1 : lookupPage (updateById ed.elements sel.id
          (fun e => { e with selected := false })) p =
          some (l0.map (updOne sel.id (fun e => { e with selected := false }))) := by
        rw [lookup_updateById, hlp]
        rfl
      cases hfind : (l0.map (updOne sel.id (fun e => { e with selected := false }))).reverse.find?
          (fun e => hitTest e pos) with
      | none =>
        have hred : (select_element_at_position ed p pos).1 =
            { ed with
              elements := updateById ed.elements sel.id (fun e => { e with selected := false }),
              selected_element := none } := by
          simp only [select_element_at_position, hlp, hse, hlk1, Option.getD_some, hfind]
        rw [hred]
        exact inv_after_miss _ ed.next_id hk1 hp1 hi1 hb1 hflags1
      | some e =>
        have hred : (select_element_at_position ed p pos).1 =
            { ed with
              elements := updateById (updateById ed.elements sel.id
                (fun e => { e with selected := false })) e.id
                (fun x => { x with selected := true }),
              selected_element := some { e with selected := true } } := by
          simp only [select_element_at_position, hlp, hse, hlk1, Option.getD_some, hfind]
        rw [hred]
        have hmem : e ∈ allElems (updateById ed.elements sel.id
            (fun e => { e with selected := false })) :=
          mem_allElems_of_lookup _ p _ e hlk1
            (List.mem_reverse.mp (List.mem_of_find?_eq_some hfind))
        exact inv_after_hit _ e ed.next_id hk1 hp1 hi1 hb1 hflags1 hmem

theorem inv_delete (ed : PDFEditor) (h : EditorInv ed) :
    EditorInv (delete_selected_element ed).1 := by
  cases hse : ed.selected_element with
  | none =>
    have hred : (delete_selected_element ed).1 = ed := by
      unfold delete_selected_element
      rw [hse]
    rw [hred]
    exact h
  | some sel =>
    cases hlp : lookupPage ed.elements sel.page_number with
    | none =>
      have hred : (delete_selected_element ed).1 = ed := by
        simp only [delete_selected_element, hse, hlp]
      rw [hred]
      exact h
    | some lst =>
      have hred : (delete_selected_element ed).1 =
          { ed with
            elements := setPage ed.elements sel.page_number (removeFirst lst sel.id),
            selected_element := none } := by
        simp only [delete_selected_element, hse, hlp]
      rw [hred]
      obtain ⟨hk, hp, hi, hb, hs⟩ := h
      obtain ⟨hst, hsm, hso⟩ := hs.2 sel hse
      obtain ⟨lst2, hlk2, hinlst⟩ := sel_in_list ed sel ⟨hk, hp, hi, hb, hs⟩ hse
      rw [hlp] at hlk2
      injection hlk2 with hlsteq2
      subst hlsteq2
      obtain ⟨pre, post, hnp, hm, hset⟩ := lookup_decomp ed.elements sel.page_number lst hlp
      obtain ⟨l1, x0, l2, hx0id, hlsteq, hl1, hrem⟩ := removeFirst_decomp lst sel.id sel hinlst rfl
      have hx0mem : x0 ∈ allElems ed.elements :=
        mem_allElems_of_lookup ed.elements sel.page_number lst x0 hlp
          (by rw [hlsteq]; exact List.mem_append_right _ (List.mem_cons_self _ _))
      have hx0sel : x0 = sel := eq_of_ids_nodup (allElems ed.elements) hi x0 sel hx0mem hsm hx0id
      have hM2 : setPage ed.elements sel.page_number (removeFirst lst sel.id) =
          pre ++ (sel.page_number, l1 ++ l2) :: post := by
        rw [hrem]
        exact hset _
      have hperm : List.Perm (allElems ed.elements)
          (sel :: allElems (pre ++ (sel.page_number, l1 ++ l2) :: post)) := by
        conv_lhs => rw [hm, hlsteq, hx0sel]
        rw [allElems_append, allElems_cons, allElems_append, allElems_cons]
        simp only [List.append_assoc, List.cons_append]
        have t1 : List.Perm (l1 ++ sel :: (l2 ++ allElems post))
            (sel :: (l1 ++ (l2 ++ allElems post))) := List.perm_middle
        have t2 : List.Perm (allElems pre ++ (l1 ++ sel :: (l2 ++ allElems post)))
            (allElems pre ++ (sel :: (l1 ++ (l2 ++ allElems post)))) :=
          List.Perm.append_left _ t1
        exact t2.trans List.perm_middle
      have hidcons : (sel.id :: (allElems (pre ++ (sel.page_number, l1 ++ l2) :: post)).map
          PDFElement.id).Nodup := by
        have hmap := hperm.map PDFElement.id
        rw [List.map_cons] at hmap
        exact (List.Perm.nodup_iff hmap).mp hi
      refine ⟨?_, ?_, ?_, ?_, ?_, ?_⟩
      · show keysOk (setPage ed.elements sel.page_number (removeFirst lst sel.id))
        rw [keysOk, pageKeys_setPage _ _ _ (by rw [hlp]; rfl)]
        exact hk
      · show pagesOk (setPage ed.elements sel.page_number (removeFirst lst sel.id))
        rw [hM2]
        have hp2 : pagesOk (pre ++ (sel.page_number, lst) :: post) := by rw [← hm]; exact hp
        intro kv hkv x hx
        rcases List.mem_append.mp hkv with h1 | h1
        · exact hp2 kv (List.mem_append_left _ h1) x hx
        · rcases List.mem_cons.mp h1 with h2 | h2
          · subst h2
            have hxlst : x ∈ lst := by
              rw [hlsteq]
              rcases List.mem_append.mp hx with h3 | h3
              · exact List.mem_append_left _ h3
              · exact List.mem_append_right _ (List.mem_cons_of_mem _ h3)
            exact hp2 (sel.page_number, lst)
              (List.mem_append_right _ (List.mem_cons_self _ _)) x hxlst
          · exact hp2 kv (List.mem_append_right _ (List.mem_cons_of_mem _ h2)) x hx
      · show idsOk (setPage ed.elements sel.page_number (removeFirst lst sel.id))
        rw [idsOk, hM2]
        exact (List.nodup_cons.mp hidcons).2
      · show idsBelow (setPage ed.elements sel.page_number (removeFirst lst sel.id)) ed.next_id
        intro x hx
        rw [hM2] at hx
        exact hb x (hperm.mem_iff.mpr (List.mem_cons_of_mem _ hx))
      · intro _ x hx
        replace hx : x ∈ allElems (setPage ed.elements sel.page_number
            (removeFirst lst sel.id)) := hx
        rw [hM2] at hx
        by_cases hxid : x.id = sel.id
        · exfalso
          exact (List.nodup_cons.mp hidcons).1 (List.mem_map.mpr ⟨x, hx, hxid⟩)
        · exact hso x (hperm.mem_iff.mpr (List.mem_cons_of_mem _ hx)) hxid
      · intro sel2 hsome
        simp at hsome

theorem inv_add_text (ed : PDFEditor) (p : Int) (text : String) (pos : ℚ × ℚ)
    (fs : ℚ) (c : String) (h : EditorInv ed) :
    EditorInv (add_text_element ed p text pos fs c).1 := by
  exact inv_insert ed p
    { id := ed.next_id, type := "text", content := text, position := pos,
      size := ((text.length : ℚ) * fs * (6/10), fs), font_size := fs, color := c,
      selected := false, page_number := p } h rfl rfl rfl

theorem inv_add_image (ed : PDFEditor) (p : Int) (path : String) (pos : ℚ × ℚ)
    (sz : ℚ × ℚ) (h : EditorInv ed) :
    EditorInv (add_image_element ed p path pos sz).1 := by
  exact inv_insert ed p
    { id := ed.next_id, type := "image", content := path, position := pos,
      size := sz, font_size := 12, color := "black",
      selected := false, page_number := p } h rfl rfl rfl

theorem inv_init : EditorInv initEditor := by
  refine ⟨?_, ?_, ?_, ?_, ?_, ?_⟩
  · simp [keysOk, pageKeys, initEditor]
  · intro kv hkv
    simp [initEditor] at hkv
  · simp [idsOk, allElems, initEditor]
  · intro x hx
    simp [allElems, initEditor] at hx
  · intro _ x hx
    simp [allElems, initEditor] at hx
  · intro sel h
    simp [initEditor] at h

theorem inv_applyOp (ed : PDFEditor) (op : Op) (h : EditorInv ed) :
    EditorInv (applyOp ed op) := by
  cases op with
  | addText p t pos fs c => exact inv_add_text ed p t pos fs c h
  | addImage p path pos sz => exact inv_add_image ed p path pos sz h
  | selectAt p pos => exact inv_select ed p pos h
  | moveSel dx dy => exact inv_move ed dx dy h
  | editSel s => exact inv_edit ed s h
  | deleteSel => exact inv_delete ed h
  | clearSel => exact inv_clear ed h

theorem inv_runFrom (ed : PDFEditor) (ops : List Op) (h : EditorInv ed) :
    EditorInv (runFrom ed ops) := by
  induction ops generalizing ed with
  | nil => exact h
  | cons op rest ih => exact ih (applyOp ed op) (inv_applyOp ed op h)

theorem inv_runOps (ops : List Op) : EditorInv (runOps ops) :=
  inv_runFrom initEditor ops inv_init

theorem inv_reachable (ed : PDFEditor) (h : Reachable ed) : EditorInv ed := by
  obtain ⟨ops, hops⟩ := h
  rw [← hops]
  exact inv_runOps ops

/-! Lemmas about the selected-flag projection strip, and packaged reductions
of each operation into its branch results. -/

theorem hitTest_strip (e : PDFElement) (pos : ℚ × ℚ) :
    hitTest (strip e) pos = hitTest e pos := rfl

theorem strip_updOne_flag (i : Nat) (b : Bool) (e : PDFElement) :
    strip (updOne i (fun x => { x with selected := b }) e) = strip e := by
  unfold updOne strip
  split <;> rfl

theorem map_strip_updOne_flag (l : List PDFElement) (i : Nat) (b : Bool) :
    (l.map (updOne i (fun x => { x with selected := b }))).map strip = l.map strip := by
  induction l with
  | nil => rfl
  | cons a rest ih => simp only [List.map_cons, strip_updOne_flag, ih]

theorem strip_id_eq (a b : PDFElement) (h : strip a = strip b) : a.id = b.id := by
  have := congrArg PDFElement.id h
  simpa [strip] using this

theorem setTrue_eq_of_strip_eq (a b : PDFElement) (h : strip a = strip b) :
    ({ a with selected := true } : PDFElement) = { b with selected := true } := by
  cases a
  cases b
  simp only [strip, PDFElement.mk.injEq] at h
  obtain ⟨h1, h2, h3, h4, h5, h6, h7, -, h8⟩ := h
  subst h1 h2 h3 h4 h5 h6 h7 h8
  rfl

theorem find_hit_strip (l1 l2 : List PDFElement) (pos : ℚ × ℚ)
    (h : l1.map strip = l2.map strip) :
    (l1.find? (fun e => hitTest e pos)).map strip =
      (l2.find? (fun e => hitTest e pos)).map strip := by
  have hcomp : ∀ l : List PDFElement,
      (l.map strip).find? (fun e => hitTest e pos) =
        (l.find? (fun e => hitTest e pos)).map strip := by
    intro l
    rw [List.find?_map]
    rfl
  rw [← hcomp l1, ← hcomp l2, h]

theorem updateById_flag_flag (m : List (Int × List PDFElement)) (i : Nat) (b c : Bool) :
    updateById (updateById m i (fun x => { x with selected := b })) i
      (fun x => { x with selected := c }) =
    updateById m i (fun x => { x with selected := c }) := by
  unfold updateById
  rw [List.map_map]
  apply List.map_congr_left
  intro kv _
  simp only [Function.comp]
  rw [List.map_map]
  apply congrArg
  apply List.map_congr_left
  intro e _
  simp only [Function.comp]
  unfold updOne
  by_cases he : e.id = i
  · rw [if_pos he, if_pos he, if_pos he]
  · rw [if_neg he, if_neg he]

theorem select_red_absent (ed : PDFEditor) (p : Int) (pos : ℚ × ℚ)
    (h : lookupPage ed.elements p = none) :
    select_element_at_position ed p pos = (ed, none) := by
  unfold select_element_at_position
  rw [h]

theorem select_red_none_miss (ed : PDFEditor) (p : Int) (pos : ℚ × ℚ) (l0 : List PDFElement)
    (hlp : lookupPage ed.elements p = some l0) (hse : ed.selected_element = none)
    (hfind : l0.reverse.find? (fun e => hitTest e pos) = none) :
    select_element_at_position ed p pos = ({ ed with selected_element := none }, none) := by
  simp only [select_element_at_position, hlp, hse, Option.getD_some, hfind]

theorem select_red_none_hit (ed : PDFEditor) (p : Int) (pos : ℚ × ℚ) (l0 : List PDFElement)
    (e : PDFElement)
    (hlp : lookupPage ed.elements p = some l0) (hse : ed.selected_element = none)
    (hfind : l0.reverse.find? (fun e => hitTest e pos) = some e) :
    select_element_at_position ed p pos =
      ({ ed with
         elements := updateById ed.elements e.id (fun x => { x with selected := true }),
         selected_element := some { e with selected := true } },
       some { e with selected := true }) := by
  simp only [select_element_at_position, hlp, hse, Option.getD_some, hfind]

theorem select_red_some_miss (ed : PDFEditor) (p : Int) (pos : ℚ × ℚ) (l0 : List PDFElement)
    (sel : PDFElement)
    (hlp : lookupPage ed.elements p = some l0) (hse : ed.selected_element = some sel)
    (hfind : (l0.map (updOne sel.id (fun e => { e with selected := false }))).reverse.find?
      (fun e => hitTest e pos) = none) :
    select_element_at_position ed p pos =
      ({ ed with
         elements := updateById ed.elements sel.id (fun e => { e with selected := false }),
         selected_element := none }, none) := by
  have hlk1 : lookupPage (updateById ed.elements sel.id
      (fun e => { e with selected := false })) p =
      some (l0.map (updOne sel.id (fun e => { e with selected := false }))) := by
    rw [lookup_updateById, hlp]
    rfl
  simp only [select_element_at_position, hlp, hse, hlk1, Option.getD_some, hfind]

theorem select_red_some_hit (ed : PDFEditor) (p : Int) (pos : ℚ × ℚ) (l0 : List PDFElement)
    (sel e : PDFElement)
    (hlp : lookupPage ed.elements p = some l0) (hse : ed.selected_element = some sel)
    (hfind : (l0.map (updOne sel.id (fun e => { e with selected := false }))).reverse.find?
      (fun e => hitTest e pos) = some e) :
    select_element_at_position ed p pos =
      ({ ed with
         elements := updateById (updateById ed.elements sel.id
           (fun e => { e with selected := false })) e.id
           (fun x => { x with selected := true }),
         selected_element := some { e with selected := true } },
       some { e with selected := true }) := by
  have hlk1 : lookupPage (updateById ed.elements sel.id
      (fun e => { e with selected := false })) p =
      some (l0.map (updOne sel.id (fun e => { e with selected := false }))) := by
    rw [lookup_updateById, hlp]
    rfl
  simp only [select_element_at_position, hlp, hse, hlk1, Option.getD_some, hfind]

theorem delete_red_none (ed : PDFEditor) (hse : ed.selected_element = none) :
    delete_selected_element ed = (ed, false) := by
  unfold delete_selected_element
  rw [hse]

theorem delete_red_nokey (ed : PDFEditor) (sel : PDFElement)
    (hse : ed.selected_element = some sel)
    (hlp : lookupPage ed.elements sel.page_number = none) :
    delete_selected_element ed = (ed, false) := by
  simp only [delete_selected_element, hse, hlp]

theorem delete_red_key (ed : PDFEditor) (sel : PDFElement) (lst : List PDFElement)
    (hse : ed.selected_element = some sel)
    (hlp : lookupPage ed.elements sel.page_number = some lst) :
    delete_selected_element ed =
      ({ ed with
         elements := setPage ed.elements sel.page_number (removeFirst lst sel.id),
         selected_element := none }, true) := by
  simp only [delete_selected_element, hse, hlp]

theorem move_red_none (ed : PDFEditor) (dx dy : ℚ) (hse : ed.selected_element = none) :
    move_selected_element ed dx dy = (ed, false) := by
  unfold move_selected_element
  rw [hse]

theorem move_red_some (ed : PDFEditor) (dx dy : ℚ) (sel : PDFElement)
    (hse : ed.selected_element = some sel) :
    move_selected_element ed dx dy =
      ({ ed with
         elements := updateById ed.elements sel.id
           (fun e => { e with position := (e.position.1 + dx, e.position.2 + dy) }),
         selected_element :=
           some { sel with position := (sel.position.1 + dx, sel.position.2 + dy) } },
       true) := by
  unfold move_selected_element
  rw [hse]

theorem edit_red_none (ed : PDFEditor) (nc : String) (hse : ed.selected_element = none) :
    edit_selected_element ed nc = (ed, false) := by
  unfold edit_selected_element
  rw [hse]

theorem edit_red_text (ed : PDFEditor) (nc : String) (sel : PDFElement)
    (hse : ed.selected_element = some sel) (ht : sel.type = "text") :
    edit_selected_element ed nc =
      ({ ed with
         elements := updateById ed.elements sel.id (fun e =>
           { e with content := nc,
                    size := ((nc.length : ℚ) * e.font_size * (6/10), e.font_size) }),
         selected_element :=
           some { sel with content := nc,
                           size := ((nc.length : ℚ) * sel.font_size * (6/10), sel.font_size) } },
       true) := by
  unfold edit_selected_element
  rw [hse]
  simp only [ht, if_true]

theorem edit_red_nontext (ed : PDFEditor) (nc : String) (sel : PDFElement)
    (hse : ed.selected_element = some sel) (ht : ¬sel.type = "text") :
    edit_selected_element ed nc = (ed, false) := by
  unfold edit_selected_element
  rw [hse]
  simp only [ht, if_false]

theorem clear_red_none (ed : PDFEditor) (hse : ed.selected_element = none) :
    clear_selection ed = ed := by
  unfold clear_selection
  rw [hse]

theorem clear_red_some (ed : PDFEditor) (sel : PDFElement)
    (hse : ed.selected_element = some sel) :
    clear_selection ed =
      { ed with
        elements := updateById ed.elements sel.id (fun e => { e with selected := false }),
        selected_element := none } := by
  unfold clear_selection
  rw [hse]

theorem selected_iff_of_inv (ed : PDFEditor) (h : EditorInv ed) (x : PDFElement)
    (hx : x ∈ allElems ed.elements) :
    (x.selected = true ↔ ed.selected_element = some x) := by
  obtain ⟨hk, hp, hi, hb, hs⟩ := h
  constructor
  · intro hxt
    cases hse : ed.selected_element with
    | none => exact absurd hxt (by rw [hs.1 hse x hx]; simp)
    | some sel =>
      obtain ⟨hst, hsm, hso⟩ := hs.2 sel hse
      by_cases hxi : x.id = sel.id
      · have hxs : x = sel := eq_of_ids_nodup (allElems ed.elements) hi x sel hx hsm hxi
        subst hxs
        rfl
      · exact absurd hxt (by rw [hso x hx hxi]; simp)
  · intro hse
    exact (hs.2 x hse).1

theorem deleteFaults_of_inv (ed : PDFEditor) (h : EditorInv ed) :
    deleteFaults ed = false := by
  cases hse : ed.selected_element with
  | none => simp only [deleteFaults, hse]
  | some sel =>
    obtain ⟨lst, hlk, hmem⟩ := sel_in_list ed sel h hse
    simp only [deleteFaults, hse, hlk]
    have hany : lst.any (fun e => e.id == sel.id) = true :=
      List.any_eq_true.mpr ⟨sel, hmem, by simp⟩
    rw [hany]
    rfl

theorem delete_spec (ed : PDFEditor) (h : EditorInv ed) (sel : PDFElement)
    (hse : ed.selected_element = some sel) :
    (delete_selected_element ed).2 = true ∧
    (delete_selected_element ed).1.selected_element = none ∧
    (∃ l1 l2, get_page_elements ed sel.page_number = l1 ++ sel :: l2 ∧
      get_page_elements (delete_selected_element ed).1 sel.page_number = l1 ++ l2) ∧
    (∀ q, q ≠ sel.page_number →
      get_page_elements (delete_selected_element ed).1 q = get_page_elements ed q) := by
  obtain ⟨lst, hlp, hmem⟩ := sel_in_list ed sel h hse
  have hred := delete_red_key ed sel lst hse hlp
  obtain ⟨hk, hp, hi, hb, hs⟩ := h
  obtain ⟨hst, hsm, hso⟩ := hs.2 sel hse
  obtain ⟨l1, x0, l2, hx0id, hlsteq, hl1, hrem⟩ := removeFirst_decomp lst sel.id sel hmem rfl
  have hx0mem : x0 ∈ allElems ed.elements :=
    mem_allElems_of_lookup ed.elements sel.page_number lst x0 hlp
      (by rw [hlsteq]; exact List.mem_append_right _ (List.mem_cons_self _ _))
  have hx0sel : x0 = sel := eq_of_ids_nodup (allElems ed.elements) hi x0 sel hx0mem hsm hx0id
  rw [hred]
  refine ⟨rfl, rfl, ⟨l1, l2, ?_, ?_⟩, ?_⟩
  · rw [get_page_elements, hlp, Option.getD_some, hlsteq, hx0sel]
  · show (lookupPage (setPage ed.elements sel.page_number (removeFirst lst sel.id))
        sel.page_number).getD [] = l1 ++ l2
    rw [lookup_setPage_self, Option.getD_some, hrem]
  · intro q hq
    show (lookupPage (setPage ed.elements sel.page_number (removeFirst lst sel.id)) q).getD []
        = get_page_elements ed q
    rw [lookup_setPage_ne _ _ _ _ hq]
    rfl

theorem filter_selected_le_one (l : List PDFElement) (i : Nat)
    (hn : (l.map PDFElement.id).Nodup)
    (himp : ∀ e ∈ l, e.selected = true → e.id = i) :
    (l.filter (fun e => e.selected)).length ≤ 1 := by
  induction l with
  | nil => simp
  | cons a rest ih =>
    rw [List.map_cons, List.nodup_cons] at hn
    by_cases ha : a.selected = true
    · rw [List.filter_cons_of_pos (by simp [ha])]
      have hrest : rest.filter (fun e => e.selected) = [] := by
        rw [List.filter_eq_nil_iff]
        intro e he
        simp only [Bool.not_eq_true]
        by_contra hesel
        rw [Bool.not_eq_false] at hesel
        have hei : e.id = i := himp e (List.mem_cons_of_mem _ he) hesel
        have hai : a.id = i := himp a (List.mem_cons_self _ _) ha
        exact hn.1 (List.mem_map.mpr ⟨e, he, by rw [hei, hai]⟩)
      rw [hrest]
      simp
    · rw [List.filter_cons_of_neg (by simp [ha])]
      exact ih hn.2 (fun e he hsel2 => himp e (List.mem_cons_of_mem _ he) hsel2)

theorem count_le_one_of_ids_nodup (l : List PDFElement) (x : PDFElement)
    (hn : (l.map PDFElement.id).Nodup) : l.count x ≤ 1 :=
  List.nodup_iff_count_le_one.mp (hn.of_map PDFElement.id) x

theorem getD_updateById (m : List (Int × List PDFElement)) (i : Nat)
    (f : PDFElement → PDFElement) (q : Int) :
    (lookupPage (updateById m i f) q).getD [] =
      ((lookupPage m q).getD []).map (updOne i f) := by
  rw [lookup_updateById]
  cases lookupPage m q <;> rfl

theorem lookup_insert_self (m : List (Int × List PDFElement)) (p : Int) (e : PDFElement) :
    lookupPage (setPage (ensureKey m p) p
      ((lookupPage (ensureKey m p) p).getD [] ++ [e])) p =
    some ((lookupPage m p).getD [] ++ [e]) := by
  rw [lookup_setPage_self, lookup_ensureKey_self, Option.getD_some]

theorem lookup_insert_ne (m : List (Int × List PDFElement)) (p q : Int) (e : PDFElement)
    (hq : q ≠ p) :
    lookupPage (setPage (ensureKey m p) p
      ((lookupPage (ensureKey m p) p).getD [] ++ [e])) q = lookupPage m q := by
  rw [lookup_setPage_ne _ _ _ _ hq, lookup_ensureKey_ne _ _ _ hq]

theorem get_add_text_self (ed : PDFEditor) (p : Int) (t : String) (pos : ℚ × ℚ)
    (fs : ℚ) (c : String) :
    get_page_elements (add_text_element ed p t pos fs c).1 p =
      get_page_elements ed p ++ [(add_text_element ed p t pos fs c).2] := by
  show (lookupPage (setPage (ensureKey ed.elements p) p _) p).getD [] = _
  rw [lookup_insert_self, Option.getD_some]
  rfl

theorem get_add_text_ne (ed : PDFEditor) (p q : Int) (t : String) (pos : ℚ × ℚ)
    (fs : ℚ) (c : String) (hq : q ≠ p) :
    get_page_elements (add_text_element ed p t pos fs c).1 q = get_page_elements ed q := by
  show (lookupPage (setPage (ensureKey ed.elements p) p _) q).getD [] = _
  rw [lookup_insert_ne _ _ _ _ hq]
  rfl

theorem get_add_image_self (ed : PDFEditor) (p : Int) (path : String) (pos : ℚ × ℚ)
    (sz : ℚ × ℚ) :
    get_page_elements (add_image_element ed p path pos sz).1 p =
      get_page_elements ed p ++ [(add_image_element ed p path pos sz).2] := by
  show (lookupPage (setPage (ensureKey ed.elements p) p _) p).getD [] = _
  rw [lookup_insert_self, Option.getD_some]
  rfl

theorem get_add_image_ne (ed : PDFEditor) (p q : Int) (path : String) (pos : ℚ × ℚ)
    (sz : ℚ × ℚ) (hq : q ≠ p) :
    get_page_elements (add_image_element ed p path pos sz).1 q = get_page_elements ed q := by
  show (lookupPage (setPage (ensureKey ed.elements p) p _) q).getD [] = _
  rw [lookup_insert_ne _ _ _ _ hq]
  rfl

theorem select_get_len (ed : PDFEditor) (p : Int) (pos : ℚ × ℚ) (q : Int) :
    (get_page_elements (select_element_at_position ed p pos).1 q).length =
      (get_page_elements ed q).length := by
  cases hlp : lookupPage ed.elements p with
  | none => rw [select_red_absent ed p pos hlp]
  | some l0 =>
    cases hse : ed.selected_element with
    | none =>
      cases hfind : l0.reverse.find? (fun e => hitTest e pos) with
      | none =>
        rw [select_red_none_miss ed p pos l0 hlp hse hfind]
        rfl
      | some e =>
        rw [select_red_none_hit ed p pos l0 e hlp hse hfind]
        show ((lookupPage (updateById ed.elements e.id
          (fun x => { x with selected := true })) q).getD []).length = _
        rw [getD_updateById, List.length_map]
        rfl
    | some sel =>
      cases hfind : (l0.map (updOne sel.id (fun e => { e with selected := false }))).reverse.find?
          (fun e => hitTest e pos) with
      | none =>
        rw [select_red_some_miss ed p pos l0 sel hlp hse hfind]
        show ((lookupPage (updateById ed.elements sel.id
          (fun e => { e with selected := false })) q).getD []).length = _
        rw [getD_updateById, List.length_map]
        rfl
      | some e =>
        rw [select_red_some_hit ed p pos l0 sel e hlp hse hfind]
        show ((lookupPage (updateById (updateById ed.elements sel.id
          (fun e => { e with selected := false })) e.id
          (fun x => { x with selected := true })) q).getD []).length = _
        rw [getD_updateById, getD_updateById, List.length_map, List.length_map]
        rfl

theorem move_get_len (ed : PDFEditor) (dx dy : ℚ) (q : Int) :
    (get_page_elements (move_selected_element ed dx dy).1 q).length =
      (get_page_elements ed q).length := by
  cases hse : ed.selected_element with
  | none => rw [move_red_none ed dx dy hse]
  | some sel =>
    rw [move_red_some ed dx dy sel hse]
    show ((lookupPage (updateById ed.elements sel.id _) q).getD []).length = _
    rw [getD_updateById, List.length_map]
    rfl

theorem edit_get_len (ed : PDFEditor) (nc : String) (q : Int) :
    (get_page_elements (edit_selected_element ed nc).1 q).length =
      (get_page_elements ed q).length := by
  cases hse : ed.selected_element with
  | none => rw [edit_red_none ed nc hse]
  | some sel =>
    by_cases ht : sel.type = "text"
    · rw [edit_red_text ed nc sel hse ht]
      show ((lookupPage (updateById ed.elements sel.id _) q).getD []).length = _
      rw [getD_updateById, List.length_map]
      rfl
    · rw [edit_red_nontext ed nc sel hse ht]

theorem clear_get_len (ed : PDFEditor) (q : Int) :
    (get_page_elements (clear_selection ed) q).length =
      (get_page_elements ed q).length := by
  cases hse : ed.selected_element with
  | none => rw [clear_red_none ed hse]
  | some sel =>
    rw [clear_red_some ed sel hse]
    show ((lookupPage (updateById ed.elements sel.id _) q).getD []).length = _
    rw [getD_updateById, List.length_map]
    rfl

theorem count_runFrom (ops : List Op) : ∀ (ed : PDFEditor) (q : Int), EditorInv ed →
    (get_page_elements (runFrom ed ops) q).length + delsOn ed ops q =
      (get_page_elements ed q).length + addsOn ops q := by
  induction ops with
  | nil =>
    intro ed q _
    simp [runFrom, delsOn, addsOn]
  | cons op rest ih =>
    intro ed q h
    have hnext := inv_applyOp ed op h
    have hstep : runFrom ed (op :: rest) = runFrom (applyOp ed op) rest := rfl
    rw [hstep]
    cases op with
    | addText p t pos fs c =>
      have hrec := ih (applyOp ed (Op.addText p t pos fs c)) q hnext
      have hd : delsOn ed (Op.addText p t pos fs c :: rest) q =
          delsOn (applyOp ed (Op.addText p t pos fs c)) rest q := by simp [delsOn]
      have ha : addsOn (Op.addText p t pos fs c :: rest) q =
          (if p = q then 1 else 0) + addsOn rest q := by simp [addsOn]
      rw [hd, ha]
      by_cases hpq : p = q
      · subst hpq
        have hlen : (get_page_elements (applyOp ed (Op.addText p t pos fs c)) p).length =
            (get_page_elements ed p).length + 1 := by
          show (get_page_elements (add_text_element ed p t pos fs c).1 p).length = _
          rw [get_add_text_self, List.length_append]
          rfl
        rw [if_pos rfl]
        omega
      · have hlen : (get_page_elements (applyOp ed (Op.addText p t pos fs c)) q).length =
            (get_page_elements ed q).length := by
          show (get_page_elements (add_text_element ed p t pos fs c).1 q).length = _
          rw [get_add_text_ne ed p q t pos fs c (fun hh => hpq hh.symm)]
        rw [if_neg hpq]
        omega
    | addImage p path pos sz =>
      have hrec := ih (applyOp ed (Op.addImage p path pos sz)) q hnext
      have hd : delsOn ed (Op.addImage p path pos sz :: rest) q =
          delsOn (applyOp ed (Op.addImage p path pos sz)) rest q := by simp [delsOn]
      have ha : addsOn (Op.addImage p path pos sz :: rest) q =
          (if p = q then 1 else 0) + addsOn rest q := by simp [addsOn]
      rw [hd, ha]
      by_cases hpq : p = q
      · subst hpq
        have hlen : (get_page_elements (applyOp ed (Op.addImage p path pos sz)) p).length =
            (get_page_elements ed p).length + 1 := by
          show (get_page_elements (add_image_element ed p path pos sz).1 p).length = _
          rw [get_add_image_self, List.length_append]
          rfl
        rw [if_pos rfl]
        omega
      · have hlen : (get_page_elements (applyOp ed (Op.addImage p path pos sz)) q).length =
            (get_page_elements ed q).length := by
          show (get_page_elements (add_image_element ed p path pos sz).1 q).length = _
          rw [get_add_image_ne ed p q path pos sz (fun hh => hpq hh.symm)]
        rw [if_neg hpq]
        omega
    | selectAt p pos =>
      have hrec := ih (applyOp ed (Op.selectAt p pos)) q hnext
      have hd : delsOn ed (Op.selectAt p pos :: rest) q =
          delsOn (applyOp ed (Op.selectAt p pos)) rest q := by simp [delsOn]
      have ha : addsOn (Op.selectAt p pos :: rest) q = addsOn rest q := by simp [addsOn]
      have hlen : (get_page_elements (applyOp ed (Op.selectAt p pos)) q).length =
          (get_page_elements ed q).length := select_get_len ed p pos q
      rw [hd, ha]
      omega
    | moveSel dx dy =>
      have hrec := ih (applyOp ed (Op.moveSel dx dy)) q hnext
      have hd : delsOn ed (Op.moveSel dx dy :: rest) q =
          delsOn (applyOp ed (Op.moveSel dx dy)) rest q := by simp [delsOn]
      have ha : addsOn (Op.moveSel dx dy :: rest) q = addsOn rest q := by simp [addsOn]
      have hlen : (get_page_elements (applyOp ed (Op.moveSel dx dy)) q).length =
          (get_page_elements ed q).length := move_get_len ed dx dy q
      rw [hd, ha]
      omega
    | editSel s =>
      have hrec := ih (applyOp ed (Op.editSel s)) q hnext
      have hd : delsOn ed (Op.editSel s :: rest) q =
          delsOn (applyOp ed (Op.editSel s)) rest q := by simp [delsOn]
      have ha : addsOn (Op.editSel s :: rest) q = addsOn rest q := by simp [addsOn]
      have hlen : (get_page_elements (applyOp ed (Op.editSel s)) q).length =
          (get_page_elements ed q).length := edit_get_len ed s q
      rw [hd, ha]
      omega
    | clearSel =>
      have hrec := ih (applyOp ed Op.clearSel) q hnext
      have hd : delsOn ed (Op.clearSel :: rest) q =
          delsOn (applyOp ed Op.clearSel) rest q := by simp [delsOn]
      have ha : addsOn (Op.clearSel :: rest) q = addsOn rest q := by simp [addsOn]
      have hlen : (get_page_elements (applyOp ed Op.clearSel) q).length =
          (get_page_elements ed q).length := clear_get_len ed q
      rw [hd, ha]
      omega
    | deleteSel =>
      have hrec := ih (applyOp ed Op.deleteSel) q hnext
      have happ : applyOp ed Op.deleteSel = (delete_selected_element ed).1 := rfl
      rw [happ] at hrec
      have hd : delsOn ed (Op.deleteSel :: rest) q =
          (if delHitsPage ed q then 1 else 0) + delsOn (applyOp ed Op.deleteSel) rest q := by
        simp [delsOn]
      rw [happ] at hd
      have ha : addsOn (Op.deleteSel :: rest) q = addsOn rest q := by simp [addsOn]
      rw [hd, ha, happ]
      cases hse : ed.selected_element with
      | none =>
        have happ2 : (delete_selected_element ed).1 = ed := by
          rw [delete_red_none ed hse]
        have hhits : delHitsPage ed q = false := by simp [delHitsPage, hse]
        rw [happ2] at hrec ⊢
        rw [hhits, if_neg (by simp)]
        omega
      | some sel =>
        obtain ⟨h1, h2, ⟨l1, l2, hbefore, hafter⟩, h4⟩ := delete_spec ed h sel hse
        have hlb := congrArg List.length hbefore
        have hla := congrArg List.length hafter
        rw [List.length_append, List.length_cons] at hlb
        rw [List.length_append] at hla
        have hhits : delHitsPage ed q = (sel.page_number == q) := by
          simp [delHitsPage, hse, h1]
        by_cases hq : sel.page_number = q
        · subst hq
          rw [hhits, if_pos (by simp)]
          omega
        · rw [hhits, if_neg (by simp [hq])]
          have hlen := h4 q (fun hh => hq hh.symm)
          rw [hlen] at hrec
          omega

/-- C3: in every state reachable from the empty store by any sequence of
addText, addImage, selectAt, moveSelected, editSelectedContent,
deleteSelected and clearSelection calls, at most one element across all
pages has selected = true. -/
theorem C3_at_most_one_selected (ops : List Op) :
    ((allElems (runOps ops).elements).filter (fun e => e.selected)).length ≤ 1 := by
  obtain ⟨hk, hp, hi, hb, hs⟩ := inv_runOps ops
  cases hse : (runOps ops).selected_element with
  | none =>
    have hnil : (allElems (runOps ops).elements).filter (fun e => e.selected) = [] := by
      rw [List.filter_eq_nil_iff]
      intro a ha
      simp [hs.1 hse a ha]
    rw [hnil]
    simp
  | some sel =>
    obtain ⟨hst, hsm, hso⟩ := hs.2 sel hse
    apply filter_selected_le_one _ sel.id hi
    intro e he hesel
    by_contra hne
    exact absurd (hso e he hne) (by simp [hesel])

/-- C10: in every reachable state with a non-empty global selection, the
selected element's flag is true and it occurs exactly once in the element
list of the page named by its own page_number field, which is what makes
removal by identity in deleteSelected well-defined. -/
theorem C10_selection_member (ops : List Op) (sel : PDFElement)
    (hse : (runOps ops).selected_element = some sel) :
    sel.selected = true ∧
    (get_page_elements (runOps ops) sel.page_number).count sel = 1 := by
  have h := inv_runOps ops
  obtain ⟨lst, hlk, hmem⟩ := sel_in_list _ sel h hse
  obtain ⟨hk, hp, hi, hb, hs⟩ := h
  refine ⟨(hs.2 sel hse).1, ?_⟩
  rw [get_page_elements, hlk, Option.getD_some]
  have hsub : List.Sublist lst (allElems (runOps ops).elements) := by
    obtain ⟨pre, post, hnp, hm, hset⟩ := lookup_decomp _ _ _ hlk
    rw [hm, allElems_append, allElems_cons]
    exact (List.sublist_append_left lst (allElems post)).trans
      (List.sublist_append_right (allElems pre) _)
  have hlstids : (lst.map PDFElement.id).Nodup :=
    List.Nodup.sublist (hsub.map PDFElement.id) hi
  exact Nat.le_antisymm (count_le_one_of_ids_nodup lst sel hlstids)
    (List.count_pos_iff.mpr hmem)

/-- C10 witness: after adding one text element on page 0 and selecting it,
the selected element is flagged and occurs exactly once on its page. -/
theorem C10_witness :
    ({ id := 0, type := "text", content := "hi", position := ((0 : ℚ), (0 : ℚ)),
       size := ((72/5 : ℚ), (12 : ℚ)), font_size := 12, color := "black",
       selected := true, page_number := 0 } : PDFElement).selected = true ∧
    (get_page_elements
      (runOps [Op.addText 0 "hi" (0, 0) 12 "black", Op.selectAt 0 (0, 0)])
      ({ id := 0, type := "text", content := "hi", position := ((0 : ℚ), (0 : ℚ)),
         size := ((72/5 : ℚ), (12 : ℚ)), font_size := 12, color := "black",
         selected := true, page_number := 0 } : PDFElement).page_number).count
      { id := 0, type := "text", content := "hi", position := ((0 : ℚ), (0 : ℚ)),
        size := ((72/5 : ℚ), (12 : ℚ)), font_size := 12, color := "black",
        selected := true, page_number := 0 } = 1 :=
  C10_selection_member [Op.addText 0 "hi" (0, 0) 12 "black", Op.selectAt 0 (0, 0)]
    { id := 0, type := "text", content := "hi", position := ((0 : ℚ), (0 : ℚ)),
      size := ((72/5 : ℚ), (12 : ℚ)), font_size := 12, color := "black",
      selected := true, page_number := 0 } (by decide)

/-- C8: the core operations are total on reachable states: the only fault
point in the source, the list.remove call of deleteSelected, has its
precondition satisfied in every reachable state (deleteFaults is false),
and clearSelection with no active selection is a safe no-op that leaves
the selection empty; every failure is reported as a boolean or absence
result by construction of the operations. -/
theorem C8_no_faults (ops : List Op) :
    deleteFaults (runOps ops) = false ∧
    ((runOps ops).selected_element = none → clear_selection (runOps ops) = runOps ops) :=
  ⟨deleteFaults_of_inv _ (inv_runOps ops), fun hse => clear_red_none _ hse⟩

/-- C8 witness: in the state with one unselected element, deleteFaults is
false and clearSelection leaves the state unchanged. -/
theorem C8_witness :
    deleteFaults (runOps [Op.addText 0 "hi" (0, 0) 12 "black"]) = false ∧
    clear_selection (runOps [Op.addText 0 "hi" (0, 0) 12 "black"]) =
      runOps [Op.addText 0 "hi" (0, 0) 12 "black"] :=
  ⟨(C8_no_faults [Op.addText 0 "hi" (0, 0) 12 "black"]).1,
   (C8_no_faults [Op.addText 0 "hi" (0, 0) 12 "black"]).2 (by decide)⟩

/-- C4: deleteSelected returns true, removes exactly the selected element
from its page's list, leaves every other page untouched and clears the
selection whenever a selection exists in a reachable state; with no
selection it returns false and changes nothing, so a second consecutive
delete always returns false. -/
theorem C4_delete_behaviour (ed : PDFEditor) (h : Reachable ed) :
    (∀ sel, ed.selected_element = some sel →
      (delete_selected_element ed).2 = true ∧
      (delete_selected_element ed).1.selected_element = none ∧
      (∃ l1 l2, get_page_elements ed sel.page_number = l1 ++ sel :: l2 ∧
        get_page_elements (delete_selected_element ed).1 sel.page_number = l1 ++ l2) ∧
      (∀ q, q ≠ sel.page_number →
        get_page_elements (delete_selected_element ed).1 q = get_page_elements ed q) ∧
      (delete_selected_element (delete_selected_element ed).1).2 = false) ∧
    (ed.selected_element = none → delete_selected_element ed = (ed, false)) := by
  have hInv := inv_reachable ed h
  constructor
  · intro sel hse
    obtain ⟨h1, h2, h3, h4⟩ := delete_spec ed hInv sel hse
    refine ⟨h1, h2, h3, h4, ?_⟩
    rw [delete_red_none _ h2]
  · intro hse
    exact delete_red_none ed hse

/-- C4 witness: in the concrete state with one selected element, delete
returns true and a second delete returns false. -/
theorem C4_witness :
    (delete_selected_element
      (runOps [Op.addText 0 "hi" (0, 0) 12 "black", Op.selectAt 0 (0, 0)])).2 = true ∧
    (delete_selected_element (delete_selected_element
      (runOps [Op.addText 0 "hi" (0, 0) 12 "black", Op.selectAt 0 (0, 0)])).1).2 = false :=
  ⟨((C4_delete_behaviour
      (runOps [Op.addText 0 "hi" (0, 0) 12 "black", Op.selectAt 0 (0, 0)])
      ⟨[Op.addText 0 "hi" (0, 0) 12 "black", Op.selectAt 0 (0, 0)], rfl⟩).1
      { id := 0, type := "text", content := "hi", position := ((0 : ℚ), (0 : ℚ)),
        size := ((72/5 : ℚ), (12 : ℚ)), font_size := 12, color := "black",
        selected := true, page_number := 0 } (by decide)).1,
   ((C4_delete_behaviour
      (runOps [Op.addText 0 "hi" (0, 0) 12 "black", Op.selectAt 0 (0, 0)])
      ⟨[Op.addText 0 "hi" (0, 0) 12 "black", Op.selectAt 0 (0, 0)], rfl⟩).1
      { id := 0, type := "text", content := "hi", position := ((0 : ℚ), (0 : ℚ)),
        size := ((72/5 : ℚ), (12 : ℚ)), font_size := 12, color := "black",
        selected := true, page_number := 0 } (by decide)).2.2.2.2⟩

/-- C5: moveSelected(dx, dy) returns true and adds (dx, dy) componentwise
to the selected element's position (both the selection snapshot and every
stored occurrence of the selected identity) when a selection exists, and
returns false with no state change when nothing is selected; consecutive
calls accumulate, so two moves by (dx, dy) and (dx2, dy2) leave the
position at the original plus (dx + dx2, dy + dy2). -/
theorem C5_move_behaviour (ed : PDFEditor) (dx dy dx2 dy2 : ℚ) :
    (ed.selected_element = none → move_selected_element ed dx dy = (ed, false)) ∧
    (∀ sel, ed.selected_element = some sel →
      (move_selected_element ed dx dy).2 = true ∧
      (move_selected_element ed dx dy).1.selected_element =
        some { sel with position := (sel.position.1 + dx, sel.position.2 + dy) } ∧
      (∀ q, get_page_elements (move_selected_element ed dx dy).1 q =
        (get_page_elements ed q).map (updOne sel.id
          (fun e => { e with position := (e.position.1 + dx, e.position.2 + dy) }))) ∧
      (move_selected_element (move_selected_element ed dx dy).1 dx2 dy2).1.selected_element =
        some { sel with
          position := (sel.position.1 + (dx + dx2), sel.position.2 + (dy + dy2)) }) := by
  refine ⟨fun hse => move_red_none ed dx dy hse, ?_⟩
  intro sel hse
  have h1 := move_red_some ed dx dy sel hse
  refine ⟨by rw [h1], by rw [h1], ?_, ?_⟩
  · intro q
    rw [h1]
    show (lookupPage (updateById ed.elements sel.id _) q).getD [] = _
    rw [getD_updateById]
    rfl
  · have hse1 : (move_selected_element ed dx dy).1.selected_element =
        some { sel with position := (sel.position.1 + dx, sel.position.2 + dy) } := by
      rw [h1]
    have h2 := move_red_some (move_selected_element ed dx dy).1 dx2 dy2
      { sel with position := (sel.position.1 + dx, sel.position.2 + dy) } hse1
    rw [h2]
    simp only [add_assoc]

/-- C5 witness: after selecting the single element at the origin, moving
by (5,0) and then by (0,5) returns true for the first move and leaves the
selection at the original position plus (5,5). -/
theorem C5_witness :
    (move_selected_element
      (runOps [Op.addText 0 "hi" (0, 0) 12 "black", Op.selectAt 0 (0, 0)]) 5 0).2 = true ∧
    (move_selected_element (move_selected_element
      (runOps [Op.addText 0 "hi" (0, 0) 12 "black", Op.selectAt 0 (0, 0)]) 5 0).1
      0 5).1.selected_element =
      some { id := 0, type := "text", content := "hi", position := ((5 : ℚ), (5 : ℚ)),
             size := ((72/5 : ℚ), (12 : ℚ)), font_size := 12, color := "black",
             selected := true, page_number := 0 } := by
  refine ⟨((C5_move_behaviour
      (runOps [Op.addText 0 "hi" (0, 0) 12 "black", Op.selectAt 0 (0, 0)]) 5 0 0 5).2
      { id := 0, type := "text", content := "hi", position := ((0 : ℚ), (0 : ℚ)),
        size := ((72/5 : ℚ), (12 : ℚ)), font_size := 12, color := "black",
        selected := true, page_number := 0 } (by decide)).1, ?_⟩
  rw [((C5_move_behaviour
      (runOps [Op.addText 0 "hi" (0, 0) 12 "black", Op.selectAt 0 (0, 0)]) 5 0 0 5).2
      { id := 0, type := "text", content := "hi", position := ((0 : ℚ), (0 : ℚ)),
        size := ((72/5 : ℚ), (12 : ℚ)), font_size := 12, color := "black",
        selected := true, page_number := 0 } (by decide)).2.2.2]
  decide

/-- C6: a Text element's size is (0.6 × fontSize × characterCount,
fontSize): addText creates the element with that size, and
editSelectedContent on a Text selection replaces the content and
recomputes the size by the same formula. -/
theorem C6_text_size (ed : PDFEditor) (p : Int) (text : String) (pos : ℚ × ℚ)
    (fs : ℚ) (c : String) (nc : String) :
    (add_text_element ed p text pos fs c).2.size =
      ((6/10) * fs * (text.length : ℚ), fs) ∧
    (∀ sel, ed.selected_element = some sel → sel.type = "text" →
      (edit_selected_element ed nc).2 = true ∧
      (edit_selected_element ed nc).1.selected_element =
        some { sel with
               content := nc,
               size := ((6/10) * sel.font_size * (nc.length : ℚ), sel.font_size) }) := by
  constructor
  · show ((text.length : ℚ) * fs * (6/10), fs) = _
    have harith : (text.length : ℚ) * fs * (6/10) = (6/10) * fs * (text.length : ℚ) := by
      ring
    rw [harith]
  · intro sel hse ht
    have h1 := edit_red_text ed nc sel hse ht
    refine ⟨by rw [h1], ?_⟩
    rw [h1]
    have harith : (nc.length : ℚ) * sel.font_size * (6/10) =
        (6/10) * sel.font_size * (nc.length : ℚ) := by ring
    rw [harith]

/-- C6 witness: adding the text hello at font size 12 yields size (36, 12),
and editing the selected two-character text element to hello recomputes its
size by the same formula. -/
theorem C6_witness :
    (add_text_element initEditor 0 "hello" (3, 4) 12 "black").2.size = (36, 12) ∧
    (edit_selected_element
      (runOps [Op.addText 0 "hi" (0, 0) 12 "black", Op.selectAt 0 (0, 0)])
      "hello").1.selected_element =
      some { id := 0, type := "text", content := "hello", position := ((0 : ℚ), (0 : ℚ)),
             size := ((36 : ℚ), (12 : ℚ)), font_size := 12, color := "black",
             selected := true, page_number := 0 } := by
  refine ⟨(C6_text_size initEditor 0 "hello" (3, 4) 12 "black" "x").1.trans (by decide), ?_⟩
  rw [((C6_text_size
      (runOps [Op.addText 0 "hi" (0, 0) 12 "black", Op.selectAt 0 (0, 0)])
      0 "x" (0, 0) 12 "black" "hello").2
      { id := 0, type := "text", content := "hi", position := ((0 : ℚ), (0 : ℚ)),
        size := ((72/5 : ℚ), (12 : ℚ)), font_size := 12, color := "black",
        selected := true, page_number := 0 } (by decide) (by decide)).2]
  decide

/-- C7: for every page and every call sequence from the empty store, the
length of the page's element list equals the number of adds on that page
minus the number of successful deletes whose selected element was on that
page (stated additively over the naturals). -/
theorem C7_page_length (ops : List Op) (q : Int) :
    (get_page_elements (runOps ops) q).length + delsOn initEditor ops q = addsOn ops q := by
  have h := count_runFrom ops initEditor q inv_init
  simpa [runOps, get_page_elements, initEditor, lookupPage] using h

theorem hitTest_updOne_flag (i : Nat) (b : Bool) (e : PDFElement) (pos : ℚ × ℚ) :
    hitTest (updOne i (fun x => { x with selected := b }) e) pos = hitTest e pos := by
  unfold updOne
  split <;> rfl

/-- C2 (amended): when no element of the addressed page contains the point,
selectAt returns absence; if the page's key is present in the store (some
element was added to that page before), the call also clears the global
selection and leaves no element flagged, but when the page key is absent
(page never had elements, including out-of-range pages) the call returns
early and the previous selection, if any, is left in place. -/
theorem C2_miss_behaviour (ed : PDFEditor) (p : Int) (pos : ℚ × ℚ) (h : Reachable ed)
    (hmiss : ∀ e ∈ get_page_elements ed p, hitTest e pos = false) :
    (select_element_at_position ed p pos).2 = none ∧
    (lookupPage ed.elements p = none → (select_element_at_position ed p pos).1 = ed) ∧
    (lookupPage ed.elements p ≠ none →
      (select_element_at_position ed p pos).1.selected_element = none ∧
      ∀ x ∈ allElems (select_element_at_position ed p pos).1.elements,
        x.selected = false) := by
  have hInv := inv_reachable ed h
  cases hlp : lookupPage ed.elements p with
  | none =>
    rw [select_red_absent ed p pos hlp]
    exact ⟨rfl, fun _ => rfl, fun hc => absurd rfl hc⟩
  | some l0 =>
    have hl0 : get_page_elements ed p = l0 := by
      rw [get_page_elements, hlp, Option.getD_some]
    obtain ⟨hk, hp2, hi, hb, hs⟩ := hInv
    cases hse : ed.selected_element with
    | none =>
      have hfind : l0.reverse.find? (fun e => hitTest e pos) = none := by
        rw [List.find?_eq_none]
        intro x hx
        have hx0 : x ∈ get_page_elements ed p := by
          rw [hl0]
          exact List.mem_reverse.mp hx
        simp [hmiss x hx0]
      rw [select_red_none_miss ed p pos l0 hlp hse hfind]
      refine ⟨rfl, fun hc => absurd hc (by simp [hlp]), fun _ => ⟨rfl, ?_⟩⟩
      intro x hx
      exact hs.1 hse x hx
    | some sel =>
      have hfind : (l0.map (updOne sel.id (fun e => { e with selected := false }))).reverse.find?
          (fun e => hitTest e pos) = none := by
        rw [List.find?_eq_none]
        intro x hx
        obtain ⟨y, hy, hxy⟩ := List.mem_map.mp (List.mem_reverse.mp hx)
        have hy0 : y ∈ get_page_elements ed p := by
          rw [hl0]
          exact hy
        rw [← hxy, hitTest_updOne_flag]
        simp [hmiss y hy0]
      rw [select_red_some_miss ed p pos l0 sel hlp hse hfind]
      refine ⟨rfl, fun hc => absurd hc (by simp [hlp]), fun _ => ⟨rfl, ?_⟩⟩
      intro x hx
      replace hx : x ∈ allElems (updateById ed.elements sel.id
          (fun e => { e with selected := false })) := hx
      rw [allElems_updateById] at hx
      obtain ⟨y, hy, hxy⟩ := List.mem_map.mp hx
      by_cases hyid : y.id = sel.id
      · rw [← hxy]
        unfold updOne
        rw [if_pos hyid]
      · have hxeqy : x = y := by rw [← hxy]; unfold updOne; rw [if_neg hyid]
        rw [hxeqy]
        exact (hs.2 sel hse).2.2 y hy hyid

/-- C2 counterexample: from the empty store, add one text element on page 0
and select it, then call selectAt on page 1 (a page that never had
elements) at any point; no element of page 1 contains the point, the call
returns absence, yet the global selection is not cleared, contradicting
the claim that afterwards the global selection is empty. -/
theorem C2_counterexample :
    get_page_elements
      (runOps [Op.addText 0 "a" (0, 0) 12 "black", Op.selectAt 0 (0, 0)]) 1 = [] ∧
    (select_element_at_position
      (runOps [Op.addText 0 "a" (0, 0) 12 "black", Op.selectAt 0 (0, 0)]) 1 (5, 5)).2
      = none ∧
    ¬ (select_element_at_position
      (runOps [Op.addText 0 "a" (0, 0) 12 "black", Op.selectAt 0 (0, 0)]) 1
      (5, 5)).1.selected_element = none := by
  refine ⟨by decide, by decide, by decide⟩

/-- C2 witness: on a reachable state whose page 0 holds one element, a miss
on page 0 (key present) returns absence, clears the selection and leaves
no element flagged. -/
theorem C2_witness :
    (select_element_at_position
      (runOps [Op.addText 0 "a" (0, 0) 12 "black", Op.selectAt 0 (0, 0)]) 0
      (100, 100)).2 = none ∧
    (select_element_at_position
      (runOps [Op.addText 0 "a" (0, 0) 12 "black", Op.selectAt 0 (0, 0)]) 0
      (100, 100)).1.selected_element = none :=
  ⟨(C2_miss_behaviour
      (runOps [Op.addText 0 "a" (0, 0) 12 "black", Op.selectAt 0 (0, 0)]) 0 (100, 100)
      ⟨[Op.addText 0 "a" (0, 0) 12 "black", Op.selectAt 0 (0, 0)], rfl⟩ (by decide)).1,
   ((C2_miss_behaviour
      (runOps [Op.addText 0 "a" (0, 0) 12 "black", Op.selectAt 0 (0, 0)]) 0 (100, 100)
      ⟨[Op.addText 0 "a" (0, 0) 12 "black", Op.selectAt 0 (0, 0)], rfl⟩ (by decide)).2.2
      (by decide)).1⟩

/-- C1: on a page whose element list is non-empty, selectAt first clears
the previously selected flag, then scans the page in reverse insertion
order and returns the first element (set selected) whose inclusive
axis-aligned box contains the point, recording it as the global selection:
the result equals the reverse find over the page list (up to the selected
flag being set), it becomes the global selection, and afterwards an
element is flagged exactly when it is the returned one; in particular with
two overlapping boxes the more recently added element wins, because the
scan is a reverse find. -/
theorem C1_select_topmost (ed : PDFEditor) (p : Int) (pos : ℚ × ℚ) (h : Reachable ed)
    (hne : get_page_elements ed p ≠ []) :
    (select_element_at_position ed p pos).2 =
      ((get_page_elements ed p).reverse.find? (fun e => hitTest e pos)).map
        (fun e => { e with selected := true }) ∧
    (select_element_at_position ed p pos).1.selected_element =
      (select_element_at_position ed p pos).2 ∧
    (∀ x, x ∈ allElems (select_element_at_position ed p pos).1.elements →
      (x.selected = true ↔ (select_element_at_position ed p pos).2 = some x)) := by
  have hInv := inv_reachable ed h
  have hmain : (select_element_at_position ed p pos).2 =
      ((get_page_elements ed p).reverse.find? (fun e => hitTest e pos)).map
        (fun e => { e with selected := true }) ∧
      (select_element_at_position ed p pos).1.selected_element =
        (select_element_at_position ed p pos).2 := by
    cases hlp : lookupPage ed.elements p with
    | none =>
      exact absurd (by rw [get_page_elements, hlp]; rfl) hne
    | some l0 =>
      have hl0 : get_page_elements ed p = l0 := by
        rw [get_page_elements, hlp, Option.getD_some]
      cases hse : ed.selected_element with
      | none =>
        cases hfind : l0.reverse.find? (fun e => hitTest e pos) with
        | none =>
          rw [select_red_none_miss ed p pos l0 hlp hse hfind, hl0, hfind]
          exact ⟨rfl, rfl⟩
        | some e =>
          rw [select_red_none_hit ed p pos l0 e hlp hse hfind, hl0, hfind]
          exact ⟨rfl, rfl⟩
      | some sel =>
        have hstripeq : ((l0.map (updOne sel.id
            (fun e => { e with selected := false }))).reverse).map strip =
            (l0.reverse).map strip := by
          rw [List.map_reverse, List.map_reverse, map_strip_updOne_flag]
        have hchain := find_hit_strip _ _ pos hstripeq
        cases hfind : (l0.map (updOne sel.id
            (fun e => { e with selected := false }))).reverse.find?
            (fun e => hitTest e pos) with
        | none =>
          rw [hfind] at hchain
          have hfind0 : l0.reverse.find? (fun e => hitTest e pos) = none := by
            cases hf0 : l0.reverse.find? (fun e => hitTest e pos) with
            | none => rfl
            | some f =>
              rw [hf0] at hchain
              exact absurd hchain.symm (by simp)
          rw [select_red_some_miss ed p pos l0 sel hlp hse hfind, hl0, hfind0]
          exact ⟨rfl, rfl⟩
        | some e =>
          rw [hfind] at hchain
          cases hf0 : l0.reverse.find? (fun e => hitTest e pos) with
          | none =>
            rw [hf0] at hchain
            exact absurd hchain (by simp)
          | some f =>
            rw [hf0] at hchain
            have hstripef : strip e = strip f := by simpa using hchain
            rw [select_red_some_hit ed p pos l0 sel e hlp hse hfind, hl0, hf0]
            refine ⟨?_, rfl⟩
            show some ({ e with selected := true } : PDFElement) = some { f with selected := true }
            rw [setTrue_eq_of_strip_eq e f hstripef]
  refine ⟨hmain.1, hmain.2, ?_⟩
  intro x hx
  have hiff := selected_iff_of_inv _ (inv_select ed p pos hInv) x hx
  rw [hmain.2] at hiff
  exact hiff

/-- C1 witness: element A with box from (0,0) to (50,50) added first,
element B with box from (10,10) to (60,60) added second, both containing
the point (20,20); selectAt returns B, the most recently added one, with
its selected flag set. -/
theorem C1_witness :
    (select_element_at_position
      (runOps [Op.addImage 0 "A" (0, 0) (50, 50), Op.addImage 0 "B" (10, 10) (50, 50)])
      0 (20, 20)).2 =
      some { id := 1, type := "image", content := "B", position := ((10 : ℚ), (10 : ℚ)),
             size := ((50 : ℚ), (50 : ℚ)), font_size := 12, color := "black",
             selected := true, page_number := 0 } :=
  ((C1_select_topmost
      (runOps [Op.addImage 0 "A" (0, 0) (50, 50), Op.addImage 0 "B" (10, 10) (50, 50)])
      0 (20, 20)
      ⟨[Op.addImage 0 "A" (0, 0) (50, 50), Op.addImage 0 "B" (10, 10) (50, 50)], rfl⟩
      (by decide)).1).trans (by decide)

/-- C9: selectAt is idempotent in its effect on the model: calling it twice
with the same page and point and no intervening mutation gives the same
returned element both times and leaves the store and global selection
exactly as after a single call. -/
theorem C9_select_idempotent (ed : PDFEditor) (p : Int) (pos : ℚ × ℚ) :
    select_element_at_position (select_element_at_position ed p pos).1 p pos =
      select_element_at_position ed p pos := by
  cases hlp : lookupPage ed.elements p with
  | none =>
    rw [select_red_absent ed p pos hlp]
    show select_element_at_position ed p pos = (ed, none)
    exact select_red_absent ed p pos hlp
  | some l0 =>
    cases hse : ed.selected_element with
    | none =>
      cases hfind : l0.reverse.find? (fun e => hitTest e pos) with
      | none =>
        rw [select_red_none_miss ed p pos l0 hlp hse hfind]
        show select_element_at_position { ed with selected_element := none } p pos =
          ({ ed with selected_element := none }, none)
        have h2 := select_red_none_miss { ed with selected_element := none } p pos l0 hlp
          rfl hfind
        rw [h2]
      | some e =>
        rw [select_red_none_hit ed p pos l0 e hlp hse hfind]
        show select_element_at_position
            { ed with
              elements := updateById ed.elements e.id (fun x => { x with selected := true }),
              selected_element := some { e with selected := true } } p pos =
          ({ ed with
             elements := updateById ed.elements e.id (fun x => { x with selected := true }),
             selected_element := some { e with selected := true } },
           some { e with selected := true })
        have hlkT : lookupPage (updateById ed.elements e.id
            (fun x => { x with selected := true })) p =
            some (l0.map (updOne e.id (fun x => { x with selected := true }))) := by
          rw [lookup_updateById, hlp]
          rfl
        have hstripeq : (((l0.map (updOne e.id (fun x => { x with selected := true }))).map
            (updOne e.id (fun x => { x with selected := false }))).reverse).map strip =
            (l0.reverse).map strip := by
          rw [List.map_reverse, List.map_reverse, map_strip_updOne_flag, map_strip_updOne_flag]
        have hchain := find_hit_strip _ _ pos hstripeq
        cases hfind2 : ((l0.map (updOne e.id (fun x => { x with selected := true }))).map
            (updOne e.id (fun x => { x with selected := false }))).reverse.find?
            (fun x => hitTest x pos) with
        | none =>
          rw [hfind2, hfind] at hchain
          exact absurd hchain (by simp)
        | some f =>
          rw [hfind2, hfind] at hchain
          have hstripfe : strip f = strip e := by simpa using hchain
          have hfid : f.id = e.id := strip_id_eq f e hstripfe
          have hres : ({ f with selected := true } : PDFElement) =
              { e with selected := true } := setTrue_eq_of_strip_eq f e hstripfe
          have h2 := select_red_some_hit
            { ed with
              elements := updateById ed.elements e.id (fun x => { x with selected := true }),
              selected_element := some { e with selected := true } } p pos
            (l0.map (updOne e.id (fun x => { x with selected := true })))
            { e with selected := true } f hlkT rfl hfind2
          rw [h2]
          show ({ ed with
                  elements := updateById (updateById (updateById ed.elements e.id
                    (fun x => { x with selected := true })) e.id
                    (fun x => { x with selected := false })) f.id
                    (fun x => { x with selected := true }),
                  selected_element := some { f with selected := true } },
                some { f with selected := true }) =
            ({ ed with
               elements := updateById ed.elements e.id (fun x => { x with selected := true }),
               selected_element := some { e with selected := true } },
             some { e with selected := true })
          rw [hres, hfid, updateById_flag_flag, updateById_flag_flag]
    | some sel =>
      cases hfind : (l0.map (updOne sel.id
          (fun e => { e with selected := false }))).reverse.find?
          (fun e => hitTest e pos) with
      | none =>
        rw [select_red_some_miss ed p pos l0 sel hlp hse hfind]
        show select_element_at_position
            { ed with
              elements := updateById ed.elements sel.id (fun e => { e with selected := false }),
              selected_element := none } p pos =
          ({ ed with
             elements := updateById ed.elements sel.id (fun e => { e with selected := false }),
             selected_element := none }, none)
        have hlkF : lookupPage (updateById ed.elements sel.id
            (fun e => { e with selected := false })) p =
            some (l0.map (updOne sel.id (fun e => { e with selected := false }))) := by
          rw [lookup_updateById, hlp]
          rfl
        have h2 := select_red_none_miss
          { ed with
            elements := updateById ed.elements sel.id (fun e => { e with selected := false }),
            selected_element := none } p pos
          (l0.map (updOne sel.id (fun e => { e with selected := false }))) hlkF rfl hfind
        rw [h2]
      | some e =>
        rw [select_red_some_hit ed p pos l0 sel e hlp hse hfind]
        show select_element_at_position
            { ed with
              elements := updateById (updateById ed.elements sel.id
                (fun e => { e with selected := false })) e.id
                (fun x => { x with selected := true }),
              selected_element := some { e with selected := true } } p pos =
          ({ ed with
             elements := updateById (updateById ed.elements sel.id
               (fun e => { e with selected := false })) e.id
               (fun x => { x with selected := true }),
             selected_element := some { e with selected := true } },
           some { e with selected := true })
        have hlkT : lookupPage (updateById (updateById ed.elements sel.id
            (fun e => { e with selected := false })) e.id
            (fun x => { x with selected := true })) p =
            some ((l0.map (updOne sel.id (fun e => { e with selected := false }))).map
              (updOne e.id (fun x => { x with selected := true }))) := by
          rw [lookup_updateById, lookup_updateById, hlp]
          rfl
        have hstripeq : ((((l0.map (updOne sel.id (fun e => { e with selected := false }))).map
            (updOne e.id (fun x => { x with selected := true }))).map
            (updOne e.id (fun x => { x with selected := false }))).reverse).map strip =
            ((l0.map (updOne sel.id (fun e => { e with selected := false }))).reverse).map
              strip := by
          rw [List.map_reverse, List.map_reverse, map_strip_updOne_flag, map_strip_updOne_flag]
        have hchain := find_hit_strip _ _ pos hstripeq
        cases hfind2 : (((l0.map (updOne sel.id (fun e => { e with selected := false }))).map
            (updOne e.id (fun x => { x with selected := true }))).map
            (updOne e.id (fun x => { x with selected := false }))).reverse.find?
            (fun x => hitTest x pos) with
        | none =>
          rw [hfind2, hfind] at hchain
          exact absurd hchain (by simp)
        | some f =>
          rw [hfind2, hfind] at hchain
          have hstripfe : strip f = strip e := by simpa using hchain
          have hfid : f.id = e.id := strip_id_eq f e hstripfe
          have hres : ({ f with selected := true } : PDFElement) =
              { e with selected := true } := setTrue_eq_of_strip_eq f e hstripfe
          have h2 := select_red_some_hit
            { ed with
              elements := updateById (updateById ed.elements sel.id
                (fun e => { e with selected := false })) e.id
                (fun x => { x with selected := true }),
              selected_element := some { e with selected := true } } p pos
            ((l0.map (updOne sel.id (fun e => { e with selected := false }))).map
              (updOne e.id (fun x => { x with selected := true })))
            { e with selected := true } f hlkT rfl hfind2
          rw [h2]
          show ({ ed with
                  elements := updateById (updateById (updateById (updateById ed.elements sel.id
                    (fun e => { e with selected := false })) e.id
                    (fun x => { x with selected := true })) e.id
                    (fun x => { x with selected := false })) f.id
                    (fun x => { x with selected := true }),
                  selected_element := some { f with selected := true } },
                some { f with selected := true }) =
            ({ ed with
               elements := updateById (updateById ed.elements sel.id
                 (fun e => { e with selected := false })) e.id
                 (fun x => { x with selected := true }),
               selected_element := some { e with selected := true } },
             some { e with selected := true })
          rw [hres, hfid, updateById_flag_flag, updateById_flag_flag]
